import Mathlib

/-!
# grok_exporter: pattern expansion, metric processing and the dispatch loop

A shallow embedding of `exporter/grok.go`, `exporter/metrics.go`, the line case of the
dispatch loop in `grok_exporter.go`, the worker of `exporter/multipleFilesTailer.go` and
the migration of `config/v1` and `config/v2`, with the properties of the specification
proved (or refuted) over it.

Go strings are modelled as lists of characters.
-/

set_option autoImplicit false

namespace GrokExporter

/-- Go `string`, as the list of its characters. -/
abbrev Str := List Char

/-! ## exporter/grok.go -/

/-- Modelled from the spec: the pattern library `Patterns` of `exporter/patterns.go`, which
is not among the sources: a mapping from pattern name to pattern body, here an association
list, the first entry of a name being the one that counts. -/
abbrev Patterns := List (Str × Str)

/-- Modelled from the spec: `patterns.Find(name)`, the `find(name) → body?` of the pattern
library: the body registered for `name`, `none` when there is none. -/
def Patterns.Find : Patterns → Str → Option Str
  | [], _ => none
  | (k, v) :: ps, name => if k = name then some v else Patterns.Find ps name

/-- The tail of the lazy group of `PATTERN_RE`: after the first captured character, `.+?`
takes as few further characters as possible before the closing brace; `.` does not match a
line feed.  Returns the rest of the capture and the text after the closing brace. -/
def scanLazy : Str → Option (Str × Str)
  | [] => none
  | c :: cs =>
    if c = '}' then some ([], cs)
    else if c = Char.ofNat 10 then none
    else match scanLazy cs with
      | some (cap, rest) => some (c :: cap, rest)
      | none => none

/-- An anchored match of `PATTERN_RE = %{(.+?)}` at the head of the string: the capture
group and the text after the match. -/
def matchHere : Str → Option (Str × Str)
  | c0 :: c1 :: c2 :: cs =>
    if c0 = '%' ∧ c1 = '{' ∧ c2 ≠ Char.ofNat 10 then
      match scanLazy cs with
      | some (cap, rest) => some (c2 :: cap, rest)
      | none => none
    else none
  | _ => none

/-- `rubex.MustCompile(PATTERN_RE).FindStringSubmatch(s)`: the leftmost match of
`%{(.+?)}`.  `none` is Go's `nil`; otherwise the text before the match, the capture group
`match[1]` and the text after the match (`match[0]` is `ref` of the capture). -/
def FindStringSubmatch : Str → Option (Str × Str × Str)
  | [] => none
  | c :: cs =>
    match matchHere (c :: cs) with
    | some (cap, rest) => some ([], cap, rest)
    | none =>
      match FindStringSubmatch cs with
      | some (pre, cap, rest) => some (c :: pre, cap, rest)
      | none => none

/-- The whole match `match[0]` of a capture group: the capture between `%{` and `}`. -/
def ref (cap : Str) : Str := '%' :: '{' :: (cap ++ ['}'])

/-- `strings.Split(s, ":")`. -/
def Split : Str → List Str
  | [] => [[]]
  | c :: cs =>
    if c = ':' then [] :: Split cs
    else match Split cs with
      | [] => [[c]]
      | p :: ps => (c :: p) :: ps

/-- The scan of `strings.Replace(s, old, new, -1)` for a non-empty `old`: `skip` counts the
characters of an occurrence of `old` still to be dropped. -/
def replaceFrom (old new : Str) : Nat → Str → Str
  | _, [] => []
  | skip + 1, _ :: cs => replaceFrom old new skip cs
  | 0, c :: cs =>
    if old.isPrefixOf (c :: cs) then new ++ replaceFrom old new (old.length - 1) cs
    else c :: replaceFrom old new 0 cs

/-- `strings.Replace(s, old, new, -1)`: every non-overlapping occurrence of `old`, from the
left, is replaced by `new`; an empty `old` matches before every character and at the end. -/
def Replace (s old new : Str) : Str :=
  if old = [] then new ++ s.foldr (fun c acc => c :: (new ++ acc)) []
  else replaceFrom old new 0 s

/-- The three errors `expand` builds with `fmt.Errorf`. -/
inductive ExpandError where
  /-- The error `"Pattern %v not defined."` of `match[0]`. -/
  | notDefined (reference : Str)
  /-- The error `"%v is not a valid pattern."` of `match[0]`. -/
  | notValid (reference : Str)
  /-- The error `"Deep recursion while expanding pattern '%v'."` of the input pattern. -/
  | deepRecursion (pattern : Str)
  deriving DecidableEq, Repr

/-- The text of an error of `expand`. -/
def ExpandError.message : ExpandError → Str
  | .notDefined r => "Pattern ".toList ++ r ++ " not defined.".toList
  | .notValid r => r ++ " is not a valid pattern.".toList
  | .deepRecursion p => "Deep recursion while expanding pattern \x27".toList ++ p ++ "\x27.".toList

/-- What one iteration of the loop of `expand` does with the current `result`. -/
inductive Step where
  /-- No match: `return result, nil`. -/
  | done (result : Str)
  /-- One substitution was made: the loop goes on with the new `result`. -/
  | next (result : Str)
  /-- The iteration returned an error. -/
  | fail (err : ExpandError)
  deriving DecidableEq, Repr

/-- The body of the `for` loop of `expand`. -/
def expandStep (patterns : Patterns) (result : Str) : Step :=
  match FindStringSubmatch result with
  | none => .done result
  | some (_, cap, _) =>
    let parts := Split cap
    match patterns.Find (parts.headD []) with
    | none => .fail (.notDefined (ref cap))
    | some regex =>
      if parts.length = 1 then
        .next (Replace result (ref cap) ("(?:".toList ++ regex ++ ")".toList))
      else if parts.length = 2 ∨ parts.length = 3 then
        .next (Replace result (ref cap)
          ("(?<".toList ++ parts.getD 1 [] ++ ">".toList ++ regex ++ ")".toList))
      else .fail (.notValid (ref cap))

/-- The `for i := 0; i < 1000; i++` loop of `expand`, with `fuel` iterations left. -/
def expandLoop (patterns : Patterns) (pattern : Str) : Nat → Str → Except ExpandError Str
  | 0, _ => .error (.deepRecursion pattern)
  | fuel + 1, result =>
    match expandStep patterns result with
    | .done r => .ok r
    | .next r => expandLoop patterns pattern fuel r
    | .fail e => .error e

/-- `expand(pattern, patterns)`. -/
def expand (pattern : Str) (patterns : Patterns) : Except ExpandError Str :=
  expandLoop patterns pattern 1000 pattern

/-- The number of substitutions the loop of `expand` makes with `fuel` iterations left. -/
def substitutions (patterns : Patterns) : Nat → Str → Nat
  | 0, _ => 0
  | fuel + 1, result =>
    match expandStep patterns result with
    | .next r => substitutions patterns fuel r + 1
    | _ => 0

/-- The string after `k` substitutions of the loop of `expand`, when each of the first `k`
iterations makes one. -/
def substitute (patterns : Patterns) : Nat → Str → Option Str
  | 0, s => some s
  | k + 1, s =>
    match expandStep patterns s with
    | .next r => substitute patterns k r
    | _ => none

/-- Whether the two characters `%{` occur in the string. -/
def hasOpen : Str → Bool
  | [] => false
  | c :: cs => (decide (c = '%') && decide (cs.head? = some '{')) || hasOpen cs

/-- The capture of a well-formed reference: not empty, without closing brace or line feed. -/
def Capture (cap : Str) : Prop :=
  cap ≠ [] ∧ ∀ c ∈ cap, c ≠ '}' ∧ c ≠ Char.ofNat 10

/-- The text `(?:` repeated `j` times: what `j` nested substitutions leave before a
reference. -/
def opens : Nat → Str
  | 0 => []
  | j + 1 => opens j ++ "(?:".toList

/-- The text `)` repeated `j` times. -/
def closes (j : Nat) : Str := List.replicate j ')'

/-- The library `A %{B}`, `B %{A}` of the recursion scenario. -/
def cycleLib : Patterns :=
  [(['A'], ref ['B']), (['B'], ref ['A'])]

/-- The pattern names `A`, `AA`, `AAA`, ... -/
def chainName (i : Nat) : Str := List.replicate (i + 1) 'A'

/-- A chain of aliases starting at name number `i`: each of `n` names is defined as a
reference to the next name, and the last name is defined as `x`. -/
def chainLib : Nat → Nat → Patterns
  | 0, i => [(chainName i, ['x'])]
  | n + 1, i => (chainName i, ref (chainName (i + 1))) :: chainLib n (i + 1)

/-! ## exporter/metrics.go

The regex engine, the templates, `strconv.ParseFloat` and the Prometheus vectors are
outside `metrics.go`; they enter as interfaces (structures of functions), as a parameter
and as a state that is passed along.  `float64` is a type parameter `V`. -/

/-- Modelled from the spec: the match result `*OnigurumaMatchResult` of the regex engine
facade, which is not among the sources: `IsMatch()` and `Get(field)`, which returns the
captured text or an error.  `Free()` releases native memory and has no counterpart here. -/
structure OnigurumaMatchResult where
  IsMatch : Bool
  Get : Str → Except Str Str

/-- Modelled from the spec: a compiled regex `*OnigurumaRegexp` of the regex engine facade,
which is not among the sources: `Match(line)` returns a match result or an error. -/
structure OnigurumaRegexp where
  Match : Str → Except Str OnigurumaMatchResult

/-- Modelled from the spec: the interface `templates.Template`, whose package is not among
the sources: `Name()`, `ReferencedGrokFields()` and `Execute(grokValues)`; a Go
`map[string]string` is a partial function on strings. -/
structure Template where
  Name : Str
  ReferencedGrokFields : List Str
  Execute : (Str → Option Str) → Except Str Str

/-- Modelled from the spec: the fields of `v3.MetricConfig`, whose package is not among the
sources, that `metrics.go` reads. -/
structure MetricConfig where
  Name : Str
  Cumulative : Bool
  ValueTemplate : Template
  LabelTemplates : List Template

/-- A Prometheus vector (`CounterVec`, `GaugeVec`, `HistogramVec`, `SummaryVec`): the
declared label names, the state `child vals` of the child `WithLabelValues(vals...)`, and
the number of update calls (`Inc`, `Add`, `Set`, `Observe`) made on the vector so far. -/
structure Vec (α : Type) where
  labelNames : List Str
  child : List Str → α
  updates : Nat

/-- One update call on the child `WithLabelValues(vals...)`. -/
def Vec.update {α : Type} (v : Vec α) (vals : List Str) (f : α → α) : Vec α :=
  { labelNames := v.labelNames
    child := fun k => if k = vals then f (v.child vals) else v.child k
    updates := v.updates + 1 }

/-- `prometheus.NewCounterVec(opts, labels)` and `NewGaugeVec`: every child starts at 0. -/
def NewValueVec {V : Type} [Zero V] (labels : List Str) : Vec V :=
  { labelNames := labels, child := fun _ => 0, updates := 0 }

/-- `prometheus.NewHistogramVec(opts, labels)` and `NewSummaryVec`: a child is the list of
the values it has observed, oldest first. -/
def NewObserverVec {V : Type} (labels : List Str) : Vec (List V) :=
  { labelNames := labels, child := fun _ => [], updates := 0 }

/-- `vec.WithLabelValues(vals...).Inc()`. -/
def Vec.Inc {V : Type} [One V] [Add V] (v : Vec V) (vals : List Str) : Vec V :=
  v.update vals (fun x => x + 1)

/-- `vec.WithLabelValues(vals...).Add(val)`. -/
def Vec.AddTo {V : Type} [Add V] (v : Vec V) (vals : List Str) (val : V) : Vec V :=
  v.update vals (fun x => x + val)

/-- `vec.WithLabelValues(vals...).Set(val)`. -/
def Vec.SetTo {V : Type} (v : Vec V) (vals : List Str) (val : V) : Vec V :=
  v.update vals (fun _ => val)

/-- `vec.WithLabelValues(vals...).Observe(val)`. -/
def Vec.Observe {V : Type} (v : Vec (List V)) (vals : List Str) (val : V) : Vec (List V) :=
  v.update vals (fun xs => xs ++ [val])

/-- The errors `Process` returns. -/
inductive MetricError where
  /-- An error of the regex engine or of a template, returned as it came. -/
  | cause (msg : Str)
  /-- The error `"error while processing metric %v: %v"` of `m.name` and `err.Error()`. -/
  | processing (metric msg : Str)
  /-- The error `"error while processing metric %v: value '%v' matches '%v', which is not
  a valid number."` of `m.name`, the value template and the rendered text. -/
  | notANumber (metric valueTemplate stringVal : Str)
  deriving DecidableEq, Repr

/-- The loop of `evalTemplate` filling the map `grokValues`. -/
def grokValuesLoop (matchResult : OnigurumaMatchResult) :
    List Str → (Str → Option Str) → Except Str (Str → Option Str)
  | [], grokValues => .ok grokValues
  | field :: fields, grokValues =>
    match matchResult.Get field with
    | .error err => .error err
    | .ok value =>
      grokValuesLoop matchResult fields (fun k => if k = field then some value else grokValues k)

/-- `evalTemplate(matchResult, t)`. -/
def evalTemplate (matchResult : OnigurumaMatchResult) (t : Template) : Except Str Str :=
  match grokValuesLoop matchResult t.ReferencedGrokFields (fun _ => none) with
  | .error err => .error err
  | .ok grokValues => t.Execute grokValues

/-- The loop of `labelValues`, `result` being the slice built so far. -/
def labelValuesLoop (matchResult : OnigurumaMatchResult) :
    List Template → List Str → Except Str (List Str)
  | [], result => .ok result
  | t :: ts, result =>
    match evalTemplate matchResult t with
    | .error err => .error err
    | .ok value => labelValuesLoop matchResult ts (result ++ [value])

/-- `labelValues(inputLabelValue, matchResult, templates)`. -/
def labelValues (inputLabelValue : Str) (matchResult : OnigurumaMatchResult)
    (templates : List Template) : Except Str (List Str) :=
  labelValuesLoop matchResult templates [inputLabelValue]

/-- The loop of `prometheusLabels`. -/
def prometheusLabelsLoop : List Template → List Str → List Str
  | [], promLabels => promLabels
  | t :: ts, promLabels => prometheusLabelsLoop ts (promLabels ++ [t.Name])

/-- `prometheusLabels(inputLabelName, templates)`. -/
def prometheusLabels (inputLabelName : Str) (templates : List Template) : List Str :=
  prometheusLabelsLoop templates [inputLabelName]

/-- The struct `incMetric` (a Prometheus counter).  `collector` is the vector as created;
the vector is mutable, so its current state `σ` is an argument and a result of `incFunc`
and of `Process`. -/
structure incMetric (σ : Type) where
  name : Str
  regex : OnigurumaRegexp
  labels : List Template
  collector : σ
  incFunc : Str → OnigurumaMatchResult → σ → Option Str × σ

/-- The struct `observeMetric` (a Prometheus gauge, histogram or summary), with the
vector state handled as in `incMetric`. -/
structure observeMetric (σ V : Type) where
  name : Str
  regex : OnigurumaRegexp
  value : Template
  labels : List Template
  collector : σ
  observeFunc : Str → OnigurumaMatchResult → V → σ → Option Str × σ

/-- `NewCounterMetric(inputLabelName, cfg, regex)`. -/
def NewCounterMetric {V : Type} [Zero V] [One V] [Add V] (inputLabelName : Str)
    (cfg : MetricConfig) (regex : OnigurumaRegexp) :
    incMetric (Vec V) :=
  { name := cfg.Name
    regex := regex
    labels := cfg.LabelTemplates
    collector := NewValueVec (prometheusLabels inputLabelName cfg.LabelTemplates)
    incFunc := fun inputLabelValue m counterVec =>
      match labelValues inputLabelValue m cfg.LabelTemplates with
      | .ok vals => (none, counterVec.Inc vals)
      | .error err => (some err, counterVec) }

/-- `NewGaugeMetric(inputLabelName, cfg, regex)`. -/
def NewGaugeMetric {V : Type} [Zero V] [Add V] (inputLabelName : Str)
    (cfg : MetricConfig) (regex : OnigurumaRegexp) :
    observeMetric (Vec V) V :=
  { name := cfg.Name
    regex := regex
    value := cfg.ValueTemplate
    collector := NewValueVec (prometheusLabels inputLabelName cfg.LabelTemplates)
    labels := cfg.LabelTemplates
    observeFunc := fun inputLabelValue m val gaugeVec =>
      match labelValues inputLabelValue m cfg.LabelTemplates with
      | .ok vals =>
        if cfg.Cumulative then (none, gaugeVec.AddTo vals val)
        else (none, gaugeVec.SetTo vals val)
      | .error err => (some err, gaugeVec) }

/-- `NewHistogramMetric(inputLabelName, cfg, regex)`; the buckets only shape what a scrape
shows of the observed values. -/
def NewHistogramMetric {V : Type} (inputLabelName : Str) (cfg : MetricConfig)
    (regex : OnigurumaRegexp) :
    observeMetric (Vec (List V)) V :=
  { name := cfg.Name
    regex := regex
    value := cfg.ValueTemplate
    collector := NewObserverVec (prometheusLabels inputLabelName cfg.LabelTemplates)
    labels := cfg.LabelTemplates
    observeFunc := fun inputLabelValue m val histogramVec =>
      match labelValues inputLabelValue m cfg.LabelTemplates with
      | .ok vals => (none, histogramVec.Observe vals val)
      | .error err => (some err, histogramVec) }

/-- `NewSummaryMetric(inputLabelName, cfg, regex)`; the quantiles only shape what a scrape
shows of the observed values. -/
def NewSummaryMetric {V : Type} (inputLabelName : Str) (cfg : MetricConfig)
    (regex : OnigurumaRegexp) :
    observeMetric (Vec (List V)) V :=
  { name := cfg.Name
    regex := regex
    value := cfg.ValueTemplate
    collector := NewObserverVec (prometheusLabels inputLabelName cfg.LabelTemplates)
    labels := cfg.LabelTemplates
    observeFunc := fun inputLabelValue m val summaryVec =>
      match labelValues inputLabelValue m cfg.LabelTemplates with
      | .ok vals => (none, summaryVec.Observe vals val)
      | .error err => (some err, summaryVec) }

/-- `(m *incMetric) Process(inputLabelValue, line)`, on the vector state `vec`: the flag
`matched`, the error (`none` is `nil`) and the vector state afterwards. -/
def incMetric.Process {σ : Type} (m : incMetric σ) (inputLabelValue line : Str) (vec : σ) :
    Bool × Option MetricError × σ :=
  match m.regex.Match line with
  | .error err => (false, some (.processing m.name err), vec)
  | .ok matchResult =>
    if matchResult.IsMatch then
      match m.incFunc inputLabelValue matchResult vec with
      | (err, vec2) => (true, err.map MetricError.cause, vec2)
    else (false, none, vec)

/-- `(m *observeMetric) Process(inputLabelValue, line)`, on the vector state `vec`;
`ParseFloat s` is `strconv.ParseFloat(s, 64)`, `none` when it returns an error. -/
def observeMetric.Process {σ V : Type} (ParseFloat : Str → Option V) (m : observeMetric σ V)
    (inputLabelValue line : Str) (vec : σ) : Bool × Option MetricError × σ :=
  match m.regex.Match line with
  | .error err => (false, some (.processing m.name err), vec)
  | .ok matchResult =>
    if matchResult.IsMatch then
      match evalTemplate matchResult m.value with
      | .error err => (true, some (.processing m.name err), vec)
      | .ok stringVal =>
        match ParseFloat stringVal with
        | none => (true, some (.notANumber m.name m.value.Name stringVal), vec)
        | some floatVal =>
          match m.observeFunc inputLabelValue matchResult floatVal vec with
          | (err, vec2) => (true, err.map MetricError.cause, vec2)
    else (false, none, vec)

/-- A call of `Process` that skipped the line with an error: `(true, err)` with `err` not
`nil`, and the vector as it was. -/
def Skipped {σ : Type} (vec : σ) (r : Bool × Option MetricError × σ) : Prop :=
  r.1 = true ∧ r.2.1 ≠ none ∧ r.2.2 = vec

/-- A call of `Process` with result `r` on the vector `vec` made at most one update, and
none unless it returned `(true, nil)`. -/
def AtMostOneUpdate {α : Type} (vec : Vec α) (r : Bool × Option MetricError × Vec α) : Prop :=
  r.2.2.updates ≤ vec.updates + 1 ∧ (r.2.2 = vec ∨ (r.1 = true ∧ r.2.1 = none))

/-- The contract of one call of `Process`, with result `r`, of a metric with the regex
`regex` and the templates of `cfg`, on the line `L` and the vector `vec`;
`value` is `ParseFloat` for a metric that reads its value template, `none` for a counter.
At most one update, and none unless `(true, nil)` is returned; a line that does not match
gives `(false, nil)` and no update; on a matching line an error of the value template, a
value that does not parse and an error of a label template each skip the line. -/
def ProcessContract {α V : Type} (regex : OnigurumaRegexp) (cfg : MetricConfig)
    (value : Option (Str → Option V)) (L : Str) (vec : Vec α)
    (r : Bool × Option MetricError × Vec α) : Prop :=
  AtMostOneUpdate vec r ∧
  (∀ mr, regex.Match L = .ok mr → mr.IsMatch = false → r = (false, none, vec)) ∧
  (∀ mr, regex.Match L = .ok mr → mr.IsMatch = true →
    (∀ ParseFloat ∈ value,
      (∃ e, evalTemplate mr cfg.ValueTemplate = .error e) → Skipped vec r) ∧
    (∀ ParseFloat ∈ value, ∀ stringVal,
      evalTemplate mr cfg.ValueTemplate = .ok stringVal → ParseFloat stringVal = none →
      Skipped vec r) ∧
    ((∃ t ∈ cfg.LabelTemplates, ∃ e, evalTemplate mr t = .error e) → Skipped vec r))

/-- What `incFunc` and the three `observeFunc` closures do: either `labelValues` fails and
they return its error and leave the vector, or they make one update and return `nil`. -/
def OneUpdateOrError {α : Type} (cfg : MetricConfig)
    (func : Str → OnigurumaMatchResult → Vec α → Option Str × Vec α) : Prop :=
  ∀ S mr vec,
    (∃ e, labelValues S mr cfg.LabelTemplates = .error e ∧ func S mr vec = (some e, vec)) ∨
    (∃ vals vec2, labelValues S mr cfg.LabelTemplates = .ok vals ∧ func S mr vec = (none, vec2)
      ∧ vec2.updates = vec.updates + 1)

/-! ## grok_exporter.go: the line case of the dispatch loop -/

/-- The interface `exporter.Metric`: `Name()` and `Process(inputLabelValue, line)`, which
acts on the state `W` of the vectors of the metrics. -/
structure Metric (W : Type) where
  Name : Str
  Process : Str → Str → W → Bool × Option MetricError × W

/-- The struct `MultipleFilesTailerEvent`: a line and the source it came from. -/
structure MultipleFilesTailerEvent where
  InputLabelValue : Str
  Line : Str

/-- The label value `number_of_lines_matched_label`. -/
def number_of_lines_matched_label : Str := "matched".toList

/-- The label value `number_of_lines_ignored_label`. -/
def number_of_lines_ignored_label : Str := "ignored".toList

/-- What the dispatch loop acts on besides the metrics: the four self-monitoring counter
vectors of `initSelfMonitoring`, what was written to standard error (a warning with its
error, then the echoed line), and how often the clock has been read. -/
structure Monitoring (V : Type) where
  nLinesTotal : Vec V
  nMatchesByMetric : Vec V
  procTimeMicrosecondsByMetric : Vec V
  nErrorsByMetric : Vec V
  stderr : List (MetricError × Str)
  clockReads : Nat

/-- The body of `for _, metric := range metrics`, on the state of the metrics, the
monitoring state and the variable `matched`.  `clock n` is what the `n`-th reading of the
clock returns, in nanoseconds: `time.Now()` reads it once, and `time.Since(start)` once
more. -/
def lineMetric {W V : Type} [One V] [Add V] [IntCast V] (clock : Nat → Int)
    (line : MultipleFilesTailerEvent) (metric : Metric W)
    (st : W × Monitoring V × Bool) : W × Monitoring V × Bool :=
  let start := clock st.2.1.clockReads
  let mon0 : Monitoring V := { st.2.1 with clockReads := st.2.1.clockReads + 1 }
  match metric.Process line.InputLabelValue line.Line st.1 with
  | (matched, err, w) =>
    let mon1 : Monitoring V :=
      match err with
      | some e =>
        { mon0 with
          stderr := mon0.stderr ++ [(e, line.Line)]
          nErrorsByMetric := mon0.nErrorsByMetric.Inc [line.InputLabelValue, metric.Name] }
      | none => mon0
    if matched then
      let since := clock mon1.clockReads - start
      (w,
        { mon1 with
          nMatchesByMetric := mon1.nMatchesByMetric.Inc [line.InputLabelValue, metric.Name]
          procTimeMicrosecondsByMetric :=
            mon1.procTimeMicrosecondsByMetric.AddTo [line.InputLabelValue, metric.Name]
              ((Int.tdiv since 1000 : Int) : V)
          clockReads := mon1.clockReads + 1 },
        true)
    else (w, mon1, st.2.2)

/-- The loop `for _, metric := range metrics`. -/
def lineLoop {W V : Type} [One V] [Add V] [IntCast V] (clock : Nat → Int)
    (line : MultipleFilesTailerEvent) :
    List (Metric W) → W × Monitoring V × Bool → W × Monitoring V × Bool
  | [], st => st
  | metric :: metrics, st => lineLoop clock line metrics (lineMetric clock line metric st)

/-- The case `line := <-allTailers.Lines()` of the dispatch loop. -/
def dispatchLine {W V : Type} [One V] [Add V] [IntCast V] (clock : Nat → Int)
    (metrics : List (Metric W))
    (line : MultipleFilesTailerEvent) (w : W) (mon : Monitoring V) : W × Monitoring V :=
  match lineLoop clock line metrics (w, mon, false) with
  | (w2, mon2, matched) =>
    if matched then
      (w2, { mon2 with
        nLinesTotal :=
          mon2.nLinesTotal.Inc [line.InputLabelValue, number_of_lines_matched_label] })
    else
      (w2, { mon2 with
        nLinesTotal :=
          mon2.nLinesTotal.Inc [line.InputLabelValue, number_of_lines_ignored_label] })

/-- What the calls of `Process` return, in the order of the metrics, each call acting on
the state the call before it left. -/
def processResults {W : Type} (inputLabelValue line : Str) :
    List (Metric W) → W → List (Bool × Option MetricError)
  | [], _ => []
  | metric :: metrics, w =>
    match metric.Process inputLabelValue line w with
    | (matched, err, w2) => (matched, err) :: processResults inputLabelValue line metrics w2

/-! ## Concrete regexes, templates and numbers for the scenarios -/

/-- The text after the leftmost occurrence of `key` that a digit follows. -/
def afterKey (key : Str) : Str → Option Str
  | [] => none
  | c :: cs =>
    if key.isPrefixOf (c :: cs) ∧ (((c :: cs).drop key.length).head?.any Char.isDigit) = true
    then some ((c :: cs).drop key.length)
    else afterKey key cs

/-- What the regex engine does with `key(?<field>[0-9]+)`, for a `key` of plain characters:
the leftmost occurrence of `key` before a digit matches, and `field` captures the digits. -/
def keyNumberRegexp (key field : Str) : OnigurumaRegexp :=
  { Match := fun line =>
      match afterKey key line with
      | none => .ok { IsMatch := false, Get := fun _ => .error "no match".toList }
      | some rest =>
        .ok { IsMatch := true
              Get := fun name =>
                if name = field then .ok (rest.takeWhile Char.isDigit)
                else .error "no such group".toList } }

/-- The template `{{.field}}` with the label name `name`. -/
def fieldTemplate (name field : Str) : Template :=
  { Name := name
    ReferencedGrokFields := [field]
    Execute := fun grokValues =>
      match grokValues field with
      | some value => .ok value
      | none => .error "no value".toList }

/-- What `strconv.ParseFloat` does with a non-empty string of decimal digits. -/
def parseDigits (s : Str) : Option Int :=
  if s ≠ [] ∧ s.all Char.isDigit = true then
    some (s.foldl (fun acc c => 10 * acc + ((c.toNat - 48 : Nat) : Int)) 0)
  else none

/-- The counter of scenario 1: match `user=%{NUM:uid}` with the label `uid`. -/
def userCounterConfig : MetricConfig :=
  { Name := "users_total".toList
    Cumulative := false
    ValueTemplate := fieldTemplate [] []
    LabelTemplates := [fieldTemplate "uid".toList "uid".toList] }

/-- The gauge of scenarios 3 and 4: match `val=%{NUM:n}`, value `{{.n}}`, no labels. -/
def valGaugeConfig (cumulative : Bool) : MetricConfig :=
  { Name := "val".toList
    Cumulative := cumulative
    ValueTemplate := fieldTemplate "value".toList "n".toList
    LabelTemplates := [] }

/-- The state of the metrics after the calls of `Process` on a list of metrics, in the order
of the list, each call acting on the state the call before it left. -/
def processWorld {W : Type} (inputLabelValue line : Str) : List (Metric W) → W → W
  | [], w => w
  | metric :: metrics, w =>
    processWorld inputLabelValue line metrics (metric.Process inputLabelValue line w).2.2

/-- How many of the calls of `Process` on a list of metrics return `matched = true`. -/
def matchCount {W : Type} (inputLabelValue line : Str) (metrics : List (Metric W)) (w : W) :
    Nat :=
  ((processResults inputLabelValue line metrics w).filter (fun r => r.1)).length

/-- A metric that matches every line, returns no error and has no state. -/
def alwaysMatches (name : Str) : Metric Unit :=
  { Name := name, Process := fun _ _ w => (true, none, w) }

/-- The monitoring state right after `initSelfMonitoring`, before any line. -/
def emptyMonitoring (inputLabelName : Str) : Monitoring Int :=
  { nLinesTotal := NewValueVec [inputLabelName, "status".toList]
    nMatchesByMetric := NewValueVec [inputLabelName, "metric".toList]
    procTimeMicrosecondsByMetric := NewValueVec [inputLabelName, "metric".toList]
    nErrorsByMetric := NewValueVec [inputLabelName, "metric".toList]
    stderr := []
    clockReads := 0 }

/-- Four readings of the clock, in nanoseconds: 0, 5000, 7000 and 9000. -/
def exampleClock (n : Nat) : Int := [0, 5000, 7000, 9000].getD n 0

/-- A line event from the source `s1`. -/
def exampleEvent : MultipleFilesTailerEvent :=
  { InputLabelValue := "s1".toList, Line := "any line".toList }

/-- `n` copies of a string, one after the other. -/
def repeatStr : Nat → Str → Str
  | 0, _ => []
  | n + 1, s => s ++ repeatStr n s

/-! ## exporter/multipleFilesTailer.go: one worker of the fan-in -/

/-- Modelled from the spec: a `tailer.Tailer`, whose package is not among the sources: the
lines and the errors waiting on its two channels, and how often `Close()` was called. -/
structure Tailer where
  Lines : List Str
  Errors : List Str
  closeCalls : Nat

/-- The struct `MultipleFilesTailerError`. -/
structure MultipleFilesTailerError where
  InputLabelValue : Str
  Error : Str

/-- The three cases of the `select` in the loop of a worker. -/
inductive SelectCase where
  /-- The case `line := <-tail.Lines()`. -/
  | line
  /-- The case `err := <-tail.Errors()`. -/
  | error
  /-- The case `<-multiTail.done`. -/
  | done
  deriving DecidableEq, Repr

/-- One worker goroutine of `RunMultipleFilesTailer` with what it touches: its source
id and tailer, whether the channel `done` is closed, the events it has sent on
`multiTail.lines` and `multiTail.errors` (oldest first), and whether it is still in its
`for` loop. -/
structure Worker where
  inputLabelValue : Str
  tail : Tailer
  done : Bool
  lines : List MultipleFilesTailerEvent
  errors : List MultipleFilesTailerError
  running : Bool

/-- `(m *MultipleFilesTailer) Close()`, seen from one worker: `close(m.done)`. -/
def Worker.Close (wk : Worker) : Worker := { wk with done := true }

/-- One iteration of the `for` loop of a worker in which the `select` takes the case `c`;
`none` when the worker has left the loop or the case is not ready.  In the case `done` the
`break` that follows `tail.Close()` leaves the `select`, not the `for`, so the worker
stays in the loop; no statement of the loop leaves it. -/
def Worker.step (c : SelectCase) (wk : Worker) : Option Worker :=
  if wk.running = false then none
  else
    match c with
    | .line =>
      match wk.tail.Lines with
      | [] => none
      | line :: rest =>
        some { wk with
          tail := { wk.tail with Lines := rest }
          lines := wk.lines ++ [{ Line := line, InputLabelValue := wk.inputLabelValue }] }
    | .error =>
      match wk.tail.Errors with
      | [] => none
      | err :: rest =>
        some { wk with
          tail := { wk.tail with Errors := rest }
          errors := wk.errors ++ [{ Error := err, InputLabelValue := wk.inputLabelValue }] }
    | .done =>
      if wk.done = true then
        some { wk with tail := { wk.tail with closeCalls := wk.tail.closeCalls + 1 } }
      else none

/-- The iterations of the loop of a worker along a list of cases taken by the `select`. -/
def Worker.run : List SelectCase → Worker → Option Worker
  | [], wk => some wk
  | c :: cs, wk =>
    match wk.step c with
    | some wk2 => Worker.run cs wk2
    | none => none

/-- A worker for the source `s1` whose tailer holds one line, before `Close`. -/
def exampleWorker : Worker :=
  { inputLabelValue := "s1".toList
    tail := { Lines := ["late line".toList], Errors := [], closeCalls := 0 }
    done := false
    lines := []
    errors := []
    running := true }

/-! ## config/v1 and config/v2: the migration to version 3

A Go pointer is an `Option`, `none` being `nil`; a function that dereferences a pointer
returns an `Option`, `none` being the panic on a `nil` pointer.  `float64` is a type
parameter `F`, a Go map an association list. -/

/-- The struct `v1.Label`. -/
structure v1.Label where
  GrokFieldName : Str
  PrometheusLabel : Str

/-- The struct `v1.MetricConfig`; `Typ` is its field `Type`. -/
structure v1.MetricConfig (F : Type) where
  Typ : Str
  Name : Str
  Help : Str
  Match : Str
  Value : Str
  Cumulative : Bool
  Buckets : List F
  Quantiles : List (F × F)
  Labels : List v1.Label

/-- The struct `v2.InputConfig`, which `v1.InputConfig` is too; `Typ` is its field `Type`. -/
structure v2.InputConfig where
  Typ : Str
  Path : Str
  Readall : Bool

/-- Modelled from the spec: `v3.GrokConfig`, whose package is not among the sources, which
`v1.GrokConfig` and `v2.GrokConfig` are too: the patterns directory and the inline
patterns. -/
structure v3.GrokConfig where
  PatternsDir : Str
  AdditionalPatterns : List Str

/-- Modelled from the spec: `v3.ServerConfig`, whose package is not among the sources,
which `v1.ServerConfig` and `v2.ServerConfig` are too. -/
structure v3.ServerConfig where
  Protocol : Str
  Host : Str
  Port : Nat
  Cert : Str
  Key : Str

/-- Modelled from the spec: `v3.GlobalConfig`, whose package is not among the sources,
which `v2.GlobalConfig` is too; the fields other than the version are left at their zero
value by the migration. -/
structure v3.GlobalConfig where
  ConfigVersion : Nat
  InputLabelName : Str

/-- Modelled from the spec: `v3.MetricConfig`, whose package is not among the sources,
which `v2.MetricConfig` is too: the fields `convertMetrics` sets. -/
structure v3.MetricConfig (F : Type) where
  Typ : Str
  Name : Str
  Help : Str
  Match : Str
  Value : Str
  Cumulative : Bool
  Buckets : List F
  Quantiles : List (F × F)
  Labels : List (Str × Str)

/-- Modelled from the spec: `v3.InputConfig`, whose package is not among the sources: the
fields `convertInputConfig` sets. -/
structure v3.InputConfig where
  Typ : Str
  Path : Str
  Readall : Bool

/-- The struct `v1.Config`. -/
structure v1.Config (F : Type) where
  Input : Option v2.InputConfig
  Grok : Option v3.GrokConfig
  Metrics : Option (List (v1.MetricConfig F))
  Server : Option v3.ServerConfig

/-- The struct `v2.Config`. -/
structure v2.Config (F : Type) where
  Global : Option v3.GlobalConfig
  Input : Option v2.InputConfig
  Grok : Option v3.GrokConfig
  Metrics : Option (List (v3.MetricConfig F))
  Server : Option v3.ServerConfig

/-- Modelled from the spec: `v3.Config`, whose package is not among the sources: the
fields `ToV3` sets. -/
structure v3.Config (F : Type) where
  Global : Option v3.GlobalConfig
  Inputs : Option (List v3.InputConfig)
  Grok : Option v3.GrokConfig
  Metrics : Option (List (v3.MetricConfig F))
  Server : Option v3.ServerConfig

/-- `makeTemplate(grokFieldName)` of `config/v1`. -/
def v1.makeTemplate (grokFieldName : Str) : Str :=
  if grokFieldName.length > 0 then "\x7b\x7b.".toList ++ grokFieldName ++ "\x7d\x7d".toList
  else []

/-- The assignment `m[key] = value` on a Go map. -/
def mapSet (m : List (Str × Str)) (key value : Str) : List (Str × Str) :=
  m.filter (fun kv => kv.1 ≠ key) ++ [(key, value)]

/-- The body of the loop of `convertMetrics` for one metric. -/
def v1.convertMetric {F : Type} (v1metric : v1.MetricConfig F) : v3.MetricConfig F :=
  { Typ := v1metric.Typ
    Name := v1metric.Name
    Help := v1metric.Help
    Match := v1metric.Match
    Value := v1.makeTemplate v1metric.Value
    Cumulative := v1metric.Cumulative
    Buckets := v1metric.Buckets
    Quantiles := v1metric.Quantiles
    Labels :=
      if v1metric.Labels.length > 0 then
        v1metric.Labels.foldl
          (fun m v1label =>
            mapSet m v1label.PrometheusLabel (v1.makeTemplate v1label.GrokFieldName))
          []
      else [] }

/-- `convertMetrics(v1metrics)` of `config/v1`: `nil` for an empty list. -/
def v1.convertMetrics {F : Type} (v1metrics : List (v1.MetricConfig F)) :
    Option (List (v3.MetricConfig F)) :=
  if v1metrics.length = 0 then none
  else some (v1metrics.map v1.convertMetric)

/-- `makeGlobalConfig()` of `config/v1`. -/
def v1.makeGlobalConfig : v3.GlobalConfig := { ConfigVersion := 2, InputLabelName := [] }

/-- `(v1cfg *Config) ToV2()`: the argument `*v1cfg.Metrics` dereferences the pointer. -/
def v1.Config.ToV2 {F : Type} (v1cfg : v1.Config F) : Option (v2.Config F) :=
  match v1cfg.Metrics with
  | none => none
  | some v1metrics =>
    some
      { Global := some v1.makeGlobalConfig
        Input := v1cfg.Input
        Grok := v1cfg.Grok
        Metrics := v1.convertMetrics v1metrics
        Server := v1cfg.Server }

/-- `makeGlobalConfig()` of `config/v2`. -/
def v2.makeGlobalConfig : v3.GlobalConfig := { ConfigVersion := 3, InputLabelName := [] }

/-- `convertInputConfig(v2inputConfig)`: `nil` for `nil`, else a list of one input. -/
def v2.convertInputConfig (v2inputConfig : Option v2.InputConfig) :
    Option (List v3.InputConfig) :=
  match v2inputConfig with
  | none => none
  | some c => some [{ Typ := c.Typ, Path := c.Path, Readall := c.Readall }]

/-- `convertMetricsConfig(v2metricsConfig)`: `len(*v2metricsConfig)` dereferences the
pointer; every element is converted to the same struct under its version 3 name. -/
def v2.convertMetricsConfig {F : Type} (v2metricsConfig : Option (List (v3.MetricConfig F))) :
    Option (Option (List (v3.MetricConfig F))) :=
  match v2metricsConfig with
  | none => none
  | some ms => some (some (ms.map (fun m => m)))

/-- `(v2cfg *Config) ToV3()`. -/
def v2.Config.ToV3 {F : Type} (v2cfg : v2.Config F) : Option (v3.Config F) :=
  match v2.convertMetricsConfig v2cfg.Metrics with
  | none => none
  | some metrics =>
    some
      { Global := some v2.makeGlobalConfig
        Inputs := v2.convertInputConfig v2cfg.Input
        Grok := v2cfg.Grok
        Metrics := metrics
        Server := v2cfg.Server }

/-- The migration `v1cfg.ToV2().ToV3()` of `v1.Unmarshal`. -/
def v1.Config.migrate {F : Type} (v1cfg : v1.Config F) : Option (v3.Config F) :=
  match v1cfg.ToV2 with
  | none => none
  | some v2cfg => v2cfg.ToV3

/-- A version 1 metric as in the example configuration. -/
def exampleV1Metric : v1.MetricConfig Int :=
  { Typ := "counter".toList
    Name := "test_count_total".toList
    Help := "Dummy help message.".toList
    Match := "Some text here".toList
    Value := []
    Cumulative := false
    Buckets := []
    Quantiles := []
    Labels := [{ GrokFieldName := "user".toList, PrometheusLabel := "user".toList }] }

/-- A version 1 configuration with the given metrics section. -/
def exampleV1Config (metrics : Option (List (v1.MetricConfig Int))) : v1.Config Int :=
  { Input := some { Typ := "file".toList, Path := "x/x/x".toList, Readall := true }
    Grok := some { PatternsDir := "b/c".toList, AdditionalPatterns := [] }
    Metrics := metrics
    Server := none }

/-! ## Lemmas on pattern expansion -/

theorem hasOpen_iff_infix (s : Str) : hasOpen s = true ↔ ['%', '{'] <:+: s := by
  induction s with
  | nil => simp [hasOpen]
  | cons c cs ih =>
    rw [List.infix_cons_iff, ← ih]
    cases cs with
    | nil => simp [hasOpen, List.prefix_iff_eq_append]
    | cons d ds =>
      simp only [hasOpen, List.head?_cons, Bool.or_eq_true, Bool.and_eq_true, decide_eq_true_eq,
        Option.some.injEq, List.cons_prefix_cons, List.nil_prefix, and_true]
      constructor
      · rintro (⟨h1, h2⟩ | h)
        · exact Or.inl ⟨h1.symm, h2.symm⟩
        · exact Or.inr h
      · rintro (⟨h1, h2⟩ | h)
        · exact Or.inl ⟨h1.symm, h2.symm⟩
        · exact Or.inr h

theorem hasOpen_cons_ne (c : Char) (s : Str) (h : c ≠ '%') : hasOpen (c :: s) = hasOpen s := by
  simp [hasOpen, h]

theorem hasOpen_snoc_ne (s : Str) (c : Char) (h : c ≠ '{') : hasOpen (s ++ [c]) = hasOpen s := by
  induction s with
  | nil => simp [hasOpen]
  | cons d ds ih =>
    have hh : decide ((ds ++ [c]).head? = some '{') = decide (ds.head? = some '{') := by
      cases ds <;> simp [h]
    simp only [List.cons_append, hasOpen, List.append_eq, ih, hh]

theorem hasOpen_append_mid (a b : Str) (c : Char) (h1 : c ≠ '%') (h2 : c ≠ '{') :
    hasOpen (a ++ c :: b) = (hasOpen a || hasOpen b) := by
  induction a with
  | nil => simp [hasOpen, h1]
  | cons d ds ih =>
    have hh : decide ((ds ++ c :: b).head? = some '{') = decide (ds.head? = some '{') := by
      cases ds <;> simp [h2]
    simp only [List.cons_append, hasOpen, List.append_eq, ih, hh, Bool.or_assoc]

theorem hasOpen_of_not_mem (s : Str) (h : '%' ∉ s) : hasOpen s = false := by
  induction s with
  | nil => rfl
  | cons c cs ih =>
    simp only [List.mem_cons, not_or] at h
    rw [hasOpen_cons_ne c cs (fun e => h.1 e.symm)]
    exact ih h.2

theorem matchHere_some_head (s : Str) (x : Str × Str) (h : matchHere s = some x) :
    ∃ t, s = '%' :: '{' :: t := by
  match s, h with
  | c0 :: c1 :: c2 :: cs, h =>
    simp only [matchHere] at h
    split_ifs at h with hc
    exact ⟨c2 :: cs, by rw [hc.1, hc.2.1]⟩

theorem FindStringSubmatch_append_left (pre : Str) (c : Char) (s : Str)
    (h : hasOpen (pre ++ [c]) = false) :
    FindStringSubmatch (pre ++ c :: s) =
      (FindStringSubmatch (c :: s)).map (fun x => (pre ++ x.1, x.2.1, x.2.2)) := by
  induction pre with
  | nil => cases hx : FindStringSubmatch (c :: s) <;> simp [hx]
  | cons d ds ih =>
    have hd : hasOpen (ds ++ [c]) = false := by
      simp only [List.cons_append, hasOpen, Bool.or_eq_false_iff] at h
      exact h.2
    have hm : matchHere (d :: (ds ++ c :: s)) = none := by
      cases hx : matchHere (d :: (ds ++ c :: s)) with
      | none => rfl
      | some x =>
        obtain ⟨t, ht⟩ := matchHere_some_head _ _ hx
        simp only [List.cons.injEq] at ht
        have h3 : (ds ++ [c]).head? = some '{' := by
          cases ds with
          | nil => simp only [List.nil_append, List.cons.injEq] at ht; simp [ht.2.1]
          | cons e es => simp only [List.cons_append, List.cons.injEq] at ht; simp [ht.2.1]
        simp [List.cons_append, hasOpen, ht.1, h3] at h
    rw [List.cons_append, FindStringSubmatch, hm, ih hd]
    cases FindStringSubmatch (c :: s) <;> simp

theorem scanLazy_capture (cap rest : Str) (h : ∀ c ∈ cap, c ≠ '}' ∧ c ≠ Char.ofNat 10) :
    scanLazy (cap ++ '}' :: rest) = some (cap, rest) := by
  induction cap with
  | nil => simp [scanLazy]
  | cons c cs ih =>
    have hc := h c (List.mem_cons_self _ _)
    simp only [List.cons_append, scanLazy, List.append_eq, hc.1, hc.2, if_false]
    rw [ih (fun x hx => h x (List.mem_cons_of_mem _ hx))]

theorem matchHere_ref (cap rest : Str) (h : Capture cap) :
    matchHere (ref cap ++ rest) = some (cap, rest) := by
  obtain ⟨hne, hall⟩ := h
  cases cap with
  | nil => exact absurd rfl hne
  | cons c cs =>
    have hc := hall c (List.mem_cons_self _ _)
    simp only [ref, List.cons_append, List.append_assoc, List.singleton_append, matchHere,
      hc.2, ne_eq, not_false_eq_true, and_self, if_true, List.nil_append]
    rw [scanLazy_capture cs rest (fun x hx => hall x (List.mem_cons_of_mem _ hx))]

theorem FindStringSubmatch_ref (cap rest : Str) (h : Capture cap) :
    FindStringSubmatch (ref cap ++ rest) = some ([], cap, rest) := by
  have hm := matchHere_ref cap rest h
  have : ref cap ++ rest = '%' :: ('{' :: (cap ++ ['}']) ++ rest) := rfl
  rw [this] at hm ⊢
  simp only [FindStringSubmatch, hm]

theorem FindStringSubmatch_leftmost (pre cap rest : Str) (hpre : hasOpen pre = false)
    (h : Capture cap) :
    FindStringSubmatch (pre ++ ref cap ++ rest) = some (pre, cap, rest) := by
  have e : pre ++ ref cap ++ rest = pre ++ '%' :: ('{' :: (cap ++ ['}']) ++ rest) := by
    simp [ref]
  have e2 : '%' :: ('{' :: (cap ++ ['}']) ++ rest) = ref cap ++ rest := rfl
  rw [e, FindStringSubmatch_append_left pre '%' _
    (by rw [hasOpen_snoc_ne _ _ (by decide)]; exact hpre),
    e2, FindStringSubmatch_ref cap rest h]
  simp

theorem replaceFrom_skip (old new a rest : Str) :
    replaceFrom old new a.length (a ++ rest) = replaceFrom old new 0 rest := by
  induction a with
  | nil => rfl
  | cons c cs ih => simpa [replaceFrom] using ih

theorem replaceFrom_occurrence (old new rest : Str) (h : old ≠ []) :
    replaceFrom old new 0 (old ++ rest) = new ++ replaceFrom old new 0 rest := by
  cases old with
  | nil => exact absurd rfl h
  | cons c o =>
    have hp : (c :: o).isPrefixOf (c :: (o ++ rest)) = true := by
      rw [List.isPrefixOf_iff_prefix]
      exact List.prefix_append (c :: o) rest
    rw [List.cons_append, replaceFrom, if_pos hp]
    simp only [List.length_cons, Nat.add_sub_cancel]
    rw [replaceFrom_skip]

theorem replaceFrom_cons_of_no_occurrence (old new : Str) (c : Char) (cs : Str)
    (h : ¬ old <+: c :: cs) :
    replaceFrom old new 0 (c :: cs) = c :: replaceFrom old new 0 cs := by
  rw [replaceFrom, if_neg]
  rw [List.isPrefixOf_iff_prefix]
  exact h

theorem replaceFrom_append_left (cap new pre : Str) (c : Char) (s : Str)
    (h : hasOpen (pre ++ [c]) = false) :
    replaceFrom (ref cap) new 0 (pre ++ c :: s) =
      pre ++ replaceFrom (ref cap) new 0 (c :: s) := by
  induction pre with
  | nil => rfl
  | cons d ds ih =>
    have hd : hasOpen (ds ++ [c]) = false := by
      simp only [List.cons_append, hasOpen, Bool.or_eq_false_iff] at h
      exact h.2
    have hn : ¬ ref cap <+: d :: (ds ++ c :: s) := by
      rintro ⟨t, ht⟩
      simp only [ref, List.cons_append, List.cons.injEq] at ht
      have h3 : (ds ++ [c]).head? = some '{' := by
        cases ds with
        | nil => simp only [List.nil_append, List.cons.injEq] at ht; simp [← ht.2.1]
        | cons e es => simp only [List.cons_append, List.cons.injEq] at ht; simp [← ht.2.1]
      simp [List.cons_append, hasOpen, ← ht.1, h3] at h
    rw [List.cons_append, replaceFrom_cons_of_no_occurrence _ _ _ _ hn, ih hd, List.cons_append]

theorem FindStringSubmatch_cons_none (c : Char) (cs : Str)
    (h : FindStringSubmatch (c :: cs) = none) :
    matchHere (c :: cs) = none ∧ FindStringSubmatch cs = none := by
  rw [FindStringSubmatch] at h
  cases hm : matchHere (c :: cs) with
  | some x => rw [hm] at h; simp at h
  | none =>
    rw [hm] at h
    cases hf : FindStringSubmatch cs with
    | some y => rw [hf] at h; simp at h
    | none => exact ⟨rfl, rfl⟩

theorem replaceFrom_no_match (cap new s : Str) (hcap : Capture cap)
    (h : FindStringSubmatch s = none) : replaceFrom (ref cap) new 0 s = s := by
  induction s with
  | nil => rfl
  | cons c cs ih =>
    obtain ⟨hm, hf⟩ := FindStringSubmatch_cons_none c cs h
    have hn : ¬ ref cap <+: c :: cs := by
      rintro ⟨t, ht⟩
      rw [← ht, matchHere_ref cap t hcap] at hm
      simp at hm
    rw [replaceFrom_cons_of_no_occurrence _ _ _ _ hn, ih hf]

theorem Replace_leftmost (pre cap suf new : Str) (hpre : hasOpen pre = false)
    (hcap : Capture cap) (hsuf : FindStringSubmatch suf = none) :
    Replace (pre ++ ref cap ++ suf) (ref cap) new = pre ++ new ++ suf := by
  have hne : ref cap ≠ [] := by simp [ref]
  have e : pre ++ ref cap ++ suf = pre ++ '%' :: ('{' :: (cap ++ ['}']) ++ suf) := by
    simp [ref]
  have e2 : '%' :: ('{' :: (cap ++ ['}']) ++ suf) = ref cap ++ suf := rfl
  rw [Replace, if_neg hne, e, replaceFrom_append_left cap new pre '%' _
    (by rw [hasOpen_snoc_ne _ _ (by decide)]; exact hpre), e2,
    replaceFrom_occurrence _ _ _ hne, replaceFrom_no_match cap new suf hcap hsuf]
  simp

theorem Split_of_not_mem (a : Str) (h : ':' ∉ a) : Split a = [a] := by
  induction a with
  | nil => rfl
  | cons c cs ih =>
    simp only [List.mem_cons, not_or] at h
    rw [Split, if_neg (fun e => h.1 e.symm), ih h.2]

theorem Split_append_colon (a b : Str) (h : ':' ∉ a) :
    Split (a ++ ':' :: b) = a :: Split b := by
  induction a with
  | nil => simp [Split]
  | cons c cs ih =>
    simp only [List.mem_cons, not_or] at h
    rw [List.cons_append, Split, if_neg (fun e => h.1 e.symm), ih h.2]

theorem FindStringSubmatch_of_not_mem (s : Str) (h : '%' ∉ s) :
    FindStringSubmatch s = none := by
  induction s with
  | nil => rfl
  | cons c cs ih =>
    simp only [List.mem_cons, not_or] at h
    have hm : matchHere (c :: cs) = none := by
      cases hx : matchHere (c :: cs) with
      | none => rfl
      | some x =>
        obtain ⟨t, ht⟩ := matchHere_some_head _ _ hx
        simp only [List.cons.injEq] at ht
        exact absurd ht.1.symm h.1
    rw [FindStringSubmatch, hm, ih h.2]

/-- One iteration of the loop on a string whose leftmost reference is `ref cap`, with
nothing that opens a reference before it and no reference after it. -/
theorem expandStep_leftmost (patterns : Patterns) (pre cap suf : Str)
    (hpre : hasOpen pre = false) (hcap : Capture cap) (hsuf : FindStringSubmatch suf = none) :
    expandStep patterns (pre ++ ref cap ++ suf) =
      match patterns.Find ((Split cap).headD []) with
      | none => .fail (.notDefined (ref cap))
      | some regex =>
        if (Split cap).length = 1 then
          .next (pre ++ ("(?:".toList ++ regex ++ ")".toList) ++ suf)
        else if (Split cap).length = 2 ∨ (Split cap).length = 3 then
          .next (pre ++ ("(?<".toList ++ (Split cap).getD 1 [] ++ ">".toList ++ regex
            ++ ")".toList) ++ suf)
        else .fail (.notValid (ref cap)) := by
  simp only [expandStep, FindStringSubmatch_leftmost pre cap suf hpre hcap,
    Replace_leftmost pre cap suf _ hpre hcap hsuf]

theorem expandLoop_done (patterns : Patterns) (pattern s : Str) (fuel : Nat)
    (h : FindStringSubmatch s = none) :
    expandLoop patterns pattern (fuel + 1) s = .ok s := by
  simp [expandLoop, expandStep, h]

theorem expandLoop_next (patterns : Patterns) (pattern s r : Str) (fuel : Nat)
    (h : expandStep patterns s = .next r) :
    expandLoop patterns pattern (fuel + 1) s = expandLoop patterns pattern fuel r := by
  simp [expandLoop, h]

theorem expandLoop_fail (patterns : Patterns) (pattern s : Str) (e : ExpandError) (fuel : Nat)
    (h : expandStep patterns s = .fail e) :
    expandLoop patterns pattern (fuel + 1) s = .error e := by
  simp [expandLoop, h]

theorem expandLoop_of_substitute (patterns : Patterns) (pattern : Str) :
    ∀ (k fuel : Nat) (s r : Str), substitute patterns k s = some r →
      FindStringSubmatch r = none → k < fuel →
      expandLoop patterns pattern fuel s = .ok r := by
  intro k
  induction k with
  | zero =>
    intro fuel s r hs hr hk
    obtain ⟨f, rfl⟩ : ∃ f, fuel = f + 1 := ⟨fuel - 1, by omega⟩
    simp only [substitute, Option.some.injEq] at hs
    subst hs
    exact expandLoop_done patterns pattern s f hr
  | succ k ih =>
    intro fuel s r hs hr hk
    obtain ⟨f, rfl⟩ : ∃ f, fuel = f + 1 := ⟨fuel - 1, by omega⟩
    rw [substitute] at hs
    cases hstep : expandStep patterns s with
    | done x => rw [hstep] at hs; simp at hs
    | fail e => rw [hstep] at hs; simp at hs
    | next x =>
      rw [hstep] at hs
      rw [expandLoop_next patterns pattern s x f hstep]
      exact ih f x r hs hr (by omega)

theorem expandLoop_exhausted (patterns : Patterns) (pattern : Str) :
    ∀ (k : Nat) (s r : Str), substitute patterns k s = some r →
      expandLoop patterns pattern k s = .error (.deepRecursion pattern) := by
  intro k
  induction k with
  | zero => intro s r _; rfl
  | succ k ih =>
    intro s r hs
    rw [substitute] at hs
    cases hstep : expandStep patterns s with
    | done x => rw [hstep] at hs; simp at hs
    | fail e => rw [hstep] at hs; simp at hs
    | next x =>
      rw [hstep] at hs
      rw [expandLoop_next patterns pattern s x k hstep]
      exact ih x r hs

theorem substitute_of_deepRecursion (patterns : Patterns) (pattern q : Str) :
    ∀ (fuel : Nat) (s : Str),
      expandLoop patterns pattern fuel s = .error (.deepRecursion q) →
      (substitute patterns fuel s).isSome = true := by
  intro fuel
  induction fuel with
  | zero => intro s _; rfl
  | succ f ih =>
    intro s h
    rw [expandLoop] at h
    rw [substitute]
    cases hstep : expandStep patterns s with
    | done x => rw [hstep] at h; simp at h
    | next x => rw [hstep] at h; exact ih x h
    | fail e =>
      rw [hstep] at h
      simp only [Except.error.injEq] at h
      subst h
      simp only [expandStep] at hstep
      split at hstep
      · simp at hstep
      · split at hstep
        · simp at hstep
        · split_ifs at hstep
          simp at hstep

theorem substitutions_le (patterns : Patterns) :
    ∀ (fuel : Nat) (s : Str), substitutions patterns fuel s ≤ fuel := by
  intro fuel
  induction fuel with
  | zero => intro s; simp [substitutions]
  | succ f ih =>
    intro s
    rw [substitutions]
    cases hstep : expandStep patterns s with
    | done x => simp
    | fail e => simp
    | next x => simpa using ih x

theorem opens_not_mem (j : Nat) : '%' ∉ opens j := by
  induction j with
  | zero => simp [opens]
  | succ j ih => simp [opens, ih]

theorem closes_not_mem (j : Nat) : '%' ∉ closes j := by
  simp [closes, List.mem_replicate]

theorem closes_succ (j : Nat) : closes (j + 1) = ')' :: closes j := rfl

/-- One substitution inside `j` nested groups. -/
theorem expandStep_nested (patterns : Patterns) (j : Nat) (name body : Str)
    (hfind : patterns.Find name = some body) (hne : name ≠ [])
    (hname : ∀ c ∈ name, c ≠ '}' ∧ c ≠ Char.ofNat 10 ∧ c ≠ ':') :
    expandStep patterns (opens j ++ ref name ++ closes j) =
      .next (opens (j + 1) ++ body ++ closes (j + 1)) := by
  have hcolon : ':' ∉ name := fun hm => (hname _ hm).2.2 rfl
  rw [expandStep_leftmost patterns (opens j) name (closes j)
    (hasOpen_of_not_mem _ (opens_not_mem j))
    ⟨hne, fun c hc => ⟨(hname c hc).1, (hname c hc).2.1⟩⟩
    (FindStringSubmatch_of_not_mem _ (closes_not_mem j))]
  simp [Split_of_not_mem name hcolon, hfind, opens, closes_succ]

theorem expand_of_step (patterns : Patterns) (s r : Str)
    (hstep : expandStep patterns s = .next r) (hr : FindStringSubmatch r = none) :
    expand s patterns = .ok r := by
  rw [expand, expandLoop_next patterns s s r 999 hstep]
  exact expandLoop_done patterns s r 998 hr

/-- A group put in place of a reference holds no reference and joins none with the text
around it. -/
theorem FindStringSubmatch_group (pre mid suf : Str) (hpre : hasOpen pre = false)
    (hmid : hasOpen mid = false) (hsuf : FindStringSubmatch suf = none) :
    FindStringSubmatch (pre ++ ('(' :: mid ++ [')']) ++ suf) = none := by
  have e : pre ++ ('(' :: mid ++ [')']) ++ suf = (pre ++ '(' :: mid) ++ ')' :: suf := by simp
  have h1 : hasOpen ((pre ++ '(' :: mid) ++ [')']) = false := by
    rw [hasOpen_snoc_ne _ _ (by decide), hasOpen_append_mid _ _ _ (by decide) (by decide),
      hpre, hmid]
    rfl
  have h2 : FindStringSubmatch (')' :: suf) = none := by
    have hm : matchHere (')' :: suf) = none := by
      cases hx : matchHere (')' :: suf) with
      | none => rfl
      | some x =>
        obtain ⟨t, ht⟩ := matchHere_some_head _ _ hx
        simp at ht
    rw [FindStringSubmatch, hm, hsuf]
  rw [e, FindStringSubmatch_append_left _ _ _ h1, h2]
  rfl

theorem cycle_substitute :
    ∀ (k j : Nat) (b : Bool), ∃ (j2 : Nat) (b2 : Bool),
      substitute cycleLib k (opens j ++ ref [if b then 'A' else 'B'] ++ closes j) =
        some (opens j2 ++ ref [if b2 then 'A' else 'B'] ++ closes j2) := by
  intro k
  induction k with
  | zero => intro j b; exact ⟨j, b, rfl⟩
  | succ k ih =>
    intro j b
    have hstep : expandStep cycleLib (opens j ++ ref [if b then 'A' else 'B'] ++ closes j) =
        .next (opens (j + 1) ++ ref [if !b then 'A' else 'B'] ++ closes (j + 1)) := by
      apply expandStep_nested
      · cases b <;> rfl
      · simp
      · cases b <;> simp
    obtain ⟨j2, b2, h2⟩ := ih (j + 1) (!b)
    exact ⟨j2, b2, by rw [substitute, hstep]; exact h2⟩

theorem chainName_inj (i j : Nat) (h : chainName i = chainName j) : i = j := by
  have := congrArg List.length h
  simpa [chainName] using this

theorem chainName_ne_nil (i : Nat) : chainName i ≠ [] := by
  simp [chainName, List.replicate_succ]

theorem chainName_chars (i : Nat) :
    ∀ c ∈ chainName i, c ≠ '}' ∧ c ≠ Char.ofNat 10 ∧ c ≠ ':' := by
  intro c hc
  rw [chainName, List.mem_replicate] at hc
  rw [hc.2]
  decide

theorem chainLib_find_last :
    ∀ (n i : Nat), Patterns.Find (chainLib n i) (chainName (i + n)) = some ['x'] := by
  intro n
  induction n with
  | zero => intro i; simp [chainLib, Patterns.Find]
  | succ n ih =>
    intro i
    have hne : chainName i ≠ chainName (i + (n + 1)) := fun h => by
      have := chainName_inj _ _ h
      omega
    rw [chainLib, Patterns.Find, if_neg hne]
    have := ih (i + 1)
    rwa [show i + 1 + n = i + (n + 1) by omega] at this

theorem chainLib_find_link :
    ∀ (n i j : Nat), j < n →
      Patterns.Find (chainLib n i) (chainName (i + j)) = some (ref (chainName (i + j + 1))) := by
  intro n
  induction n with
  | zero => intro i j h; omega
  | succ n ih =>
    intro i j h
    cases j with
    | zero => simp [chainLib, Patterns.Find]
    | succ j =>
      have hne : chainName i ≠ chainName (i + (j + 1)) := fun h => by
        have := chainName_inj _ _ h
        omega
      rw [chainLib, Patterns.Find, if_neg hne]
      have := ih (i + 1) j (by omega)
      rwa [show i + 1 + j = i + (j + 1) by omega] at this

theorem chain_substitute (n : Nat) :
    ∀ (k i j : Nat), i + k = n →
      substitute (chainLib n 0) (k + 1) (opens j ++ ref (chainName i) ++ closes j) =
        some (opens (j + k + 1) ++ ['x'] ++ closes (j + k + 1)) := by
  intro k
  induction k with
  | zero =>
    intro i j h
    have hin : i = n := by omega
    subst hin
    have hfind := chainLib_find_last i 0
    rw [Nat.zero_add] at hfind
    rw [substitute, expandStep_nested _ j _ _ hfind (chainName_ne_nil i) (chainName_chars i)]
    rfl
  | succ k ih =>
    intro i j h
    have hfind := chainLib_find_link n 0 i (by omega)
    rw [Nat.zero_add] at hfind
    rw [substitute, expandStep_nested _ j _ _ hfind (chainName_ne_nil i) (chainName_chars i)]
    have := ih (i + 1) (j + 1) (by omega)
    rw [show j + 1 + k + 1 = j + (k + 1) + 1 by omega] at this
    exact this

theorem cycle_never_free (k : Nat) :
    ∃ r, substitute cycleLib k (ref ['A']) = some r ∧ FindStringSubmatch r ≠ none := by
  obtain ⟨j2, b2, h⟩ := cycle_substitute k 0 true
  have e : opens 0 ++ ref [if true then 'A' else 'B'] ++ closes 0 = ref ['A'] := by
    simp [opens, closes]
  rw [e] at h
  refine ⟨_, h, ?_⟩
  rw [FindStringSubmatch_leftmost _ _ _ (hasOpen_of_not_mem _ (opens_not_mem j2))
    ⟨by simp, by cases b2 <;> simp⟩]
  simp

theorem hasOpen_eq_false_of_not_infix (s : Str) (h : ¬ ['%', '{'] <:+: s) :
    hasOpen s = false := by
  rw [Bool.eq_false_iff, Ne, hasOpen_iff_infix]
  exact h

theorem expandStep_done (patterns : Patterns) (s x : Str)
    (h : expandStep patterns s = .done x) : x = s ∧ FindStringSubmatch s = none := by
  unfold expandStep at h
  cases hm : FindStringSubmatch s with
  | none =>
    rw [hm] at h
    simp only [Step.done.injEq] at h
    exact ⟨h.symm, rfl⟩
  | some y =>
    rw [hm] at h
    simp only at h
    split at h
    · cases h
    · split_ifs at h

/-- The three ways the loop of `expand` ends, with the number of substitutions made. -/
theorem expandLoop_outcome (patterns : Patterns) (pattern : Str) :
    ∀ (fuel : Nat) (s : Str),
      (∃ k r, k < fuel ∧ substitute patterns k s = some r ∧ FindStringSubmatch r = none ∧
        expandLoop patterns pattern fuel s = .ok r) ∨
      (∃ k t e, k < fuel ∧ substitute patterns k s = some t ∧
        expandStep patterns t = .fail e ∧ expandLoop patterns pattern fuel s = .error e) ∨
      ((substitute patterns fuel s).isSome = true ∧
        expandLoop patterns pattern fuel s = .error (.deepRecursion pattern)) := by
  intro fuel
  induction fuel with
  | zero => intro s; exact Or.inr (Or.inr ⟨rfl, rfl⟩)
  | succ f ih =>
    intro s
    cases hstep : expandStep patterns s with
    | done x =>
      obtain ⟨hx, hfree⟩ := expandStep_done patterns s x hstep
      subst hx
      exact Or.inl ⟨0, x, Nat.succ_pos f, rfl, hfree, expandLoop_done patterns pattern x f hfree⟩
    | fail e =>
      exact Or.inr (Or.inl ⟨0, s, e, Nat.succ_pos f, rfl, hstep,
        expandLoop_fail patterns pattern s e f hstep⟩)
    | next x =>
      have hsub : ∀ k, substitute patterns (k + 1) s = substitute patterns k x := by
        intro k
        rw [substitute, hstep]
      have hloop := expandLoop_next patterns pattern s x f hstep
      rcases ih x with ⟨k, r, hk, h1, h2, h3⟩ | ⟨k, t, e, hk, h1, h2, h3⟩ | ⟨h1, h2⟩
      · exact Or.inl ⟨k + 1, r, Nat.succ_lt_succ hk, by rw [hsub, h1], h2, by rw [hloop, h3]⟩
      · exact Or.inr (Or.inl ⟨k + 1, t, e, Nat.succ_lt_succ hk, by rw [hsub, h1], h2,
          by rw [hloop, h3]⟩)
      · exact Or.inr (Or.inr ⟨by rw [hsub, h1], by rw [hloop, h2]⟩)

/-! ## Pattern expansion: the claims -/

/-- C5: a pattern in which the reference regex finds no occurrence is returned unchanged
and without error, whatever the library. -/
theorem expand_identity (patterns : Patterns) (pattern : Str)
    (h : FindStringSubmatch pattern = none) :
    expand pattern patterns = .ok pattern :=
  expandLoop_done patterns pattern pattern 999 h

theorem expand_identity_witness :
    FindStringSubmatch "hello [0-9]+ world".toList = none ∧
      expand "hello [0-9]+ world".toList [("NUM".toList, "[0-9]+".toList)]
        = .ok "hello [0-9]+ world".toList :=
  ⟨rfl, expand_identity [("NUM".toList, "[0-9]+".toList)] "hello [0-9]+ world".toList rfl⟩

/-- C6, as stated, fails: with `A` defined as `a`, the pattern `%{A:%{X}}` has the form
`%{NAME:FIELD}` followed by the suffix `}` for the field `%{X`; the body and the prefix
hold no `%{` and the suffix no reference, yet `expand` returns the undefined-pattern error,
because the field put back by the first substitution opens a new reference `%{X>a)}`. -/
theorem expand_reference_counterexample :
    Patterns.Find [("A".toList, "a".toList)] "A".toList = some "a".toList ∧
      (¬ ['%', '{'] <:+: "a".toList) ∧
      (¬ ['%', '{'] <:+: ([] : Str)) ∧
      FindStringSubmatch "\x7d".toList = none ∧
      expand ([] ++ ref ("A".toList ++ ':' :: "%\x7bX".toList) ++ "\x7d".toList)
          [("A".toList, "a".toList)]
        = .error (.notDefined "%\x7bX>a)\x7d".toList) :=
  ⟨rfl, by decide, by decide, rfl, rfl⟩

/-- C6, amended: when the library maps `NAME` to a `BODY` without `%{`, the text before the
reference holds no `%{` and the text after it no reference, `%{NAME}` becomes `(?:BODY)`
and both `%{NAME:FIELD}` and `%{NAME:FIELD:TYPE}` become `(?<FIELD>BODY)`, the rest of
the pattern being unchanged.  `NAME`, `FIELD` and `TYPE` are segments of a reference:
free of colon, closing brace and line feed, `NAME` not empty, `FIELD` without `%{`. -/
theorem expand_reference (patterns : Patterns) (NAME FIELD TYPE BODY pre suf : Str)
    (hfind : patterns.Find NAME = some BODY)
    (hbody : ¬ ['%', '{'] <:+: BODY) (hpre : ¬ ['%', '{'] <:+: pre)
    (hsuf : FindStringSubmatch suf = none)
    (hname : NAME ≠ [])
    (hseg : ∀ c ∈ NAME ++ FIELD ++ TYPE, c ≠ ':' ∧ c ≠ '}' ∧ c ≠ Char.ofNat 10)
    (hfield : ¬ ['%', '{'] <:+: FIELD) :
    expand (pre ++ ref NAME ++ suf) patterns
        = .ok (pre ++ ("(?:".toList ++ BODY ++ ")".toList) ++ suf) ∧
      expand (pre ++ ref (NAME ++ ':' :: FIELD) ++ suf) patterns
        = .ok (pre ++ ("(?<".toList ++ FIELD ++ ">".toList ++ BODY ++ ")".toList) ++ suf) ∧
      expand (pre ++ ref (NAME ++ ':' :: (FIELD ++ ':' :: TYPE)) ++ suf) patterns
        = .ok (pre ++ ("(?<".toList ++ FIELD ++ ">".toList ++ BODY ++ ")".toList) ++ suf) := by
  have hpre2 := hasOpen_eq_false_of_not_infix pre hpre
  have hbody2 := hasOpen_eq_false_of_not_infix BODY hbody
  have hfield2 := hasOpen_eq_false_of_not_infix FIELD hfield
  have hN : ∀ c ∈ NAME, c ≠ ':' ∧ c ≠ '}' ∧ c ≠ Char.ofNat 10 :=
    fun c hc => hseg c (by simp [hc])
  have hF : ∀ c ∈ FIELD, c ≠ ':' ∧ c ≠ '}' ∧ c ≠ Char.ofNat 10 :=
    fun c hc => hseg c (by simp [hc])
  have hT : ∀ c ∈ TYPE, c ≠ ':' ∧ c ≠ '}' ∧ c ≠ Char.ofNat 10 :=
    fun c hc => hseg c (by simp [hc])
  have hNc : ':' ∉ NAME := fun hm => (hN _ hm).1 rfl
  have hFc : ':' ∉ FIELD := fun hm => (hF _ hm).1 rfl
  have hTc : ':' ∉ TYPE := fun hm => (hT _ hm).1 rfl
  have cap1 : Capture NAME := ⟨hname, fun c hc => ⟨(hN c hc).2.1, (hN c hc).2.2⟩⟩
  have cap2 : Capture (NAME ++ ':' :: FIELD) := by
    refine ⟨by simp, fun c hc => ?_⟩
    simp only [List.mem_append, List.mem_cons] at hc
    rcases hc with hc | rfl | hc
    · exact ⟨(hN c hc).2.1, (hN c hc).2.2⟩
    · exact ⟨by decide, by decide⟩
    · exact ⟨(hF c hc).2.1, (hF c hc).2.2⟩
  have cap3 : Capture (NAME ++ ':' :: (FIELD ++ ':' :: TYPE)) := by
    refine ⟨by simp, fun c hc => ?_⟩
    simp only [List.mem_append, List.mem_cons] at hc
    rcases hc with hc | rfl | hc | rfl | hc
    · exact ⟨(hN c hc).2.1, (hN c hc).2.2⟩
    · exact ⟨by decide, by decide⟩
    · exact ⟨(hF c hc).2.1, (hF c hc).2.2⟩
    · exact ⟨by decide, by decide⟩
    · exact ⟨(hT c hc).2.1, (hT c hc).2.2⟩
  have s1 : Split NAME = [NAME] := Split_of_not_mem NAME hNc
  have s2 : Split (NAME ++ ':' :: FIELD) = [NAME, FIELD] := by
    rw [Split_append_colon NAME FIELD hNc, Split_of_not_mem FIELD hFc]
  have s3 : Split (NAME ++ ':' :: (FIELD ++ ':' :: TYPE)) = [NAME, FIELD, TYPE] := by
    rw [Split_append_colon NAME _ hNc, Split_append_colon FIELD TYPE hFc,
      Split_of_not_mem TYPE hTc]
  have g1 : FindStringSubmatch (pre ++ ("(?:".toList ++ BODY ++ ")".toList) ++ suf) = none :=
    FindStringSubmatch_group pre ('?' :: ':' :: BODY) suf hpre2
      (by rw [hasOpen_cons_ne _ _ (by decide), hasOpen_cons_ne _ _ (by decide)]; exact hbody2)
      hsuf
  have g2 : FindStringSubmatch
      (pre ++ ("(?<".toList ++ FIELD ++ ">".toList ++ BODY ++ ")".toList) ++ suf) = none := by
    have := FindStringSubmatch_group pre ('?' :: '<' :: (FIELD ++ '>' :: BODY)) suf hpre2
      (by
        rw [hasOpen_cons_ne _ _ (by decide), hasOpen_cons_ne _ _ (by decide),
          hasOpen_append_mid _ _ _ (by decide) (by decide), hfield2, hbody2]
        rfl)
      hsuf
    have e : pre ++ ("(?<".toList ++ FIELD ++ ">".toList ++ BODY ++ ")".toList) ++ suf
        = pre ++ ('(' :: ('?' :: '<' :: (FIELD ++ '>' :: BODY)) ++ [')']) ++ suf := by
      simp
    rw [e]
    exact this
  refine ⟨?_, ?_, ?_⟩
  · apply expand_of_step _ _ _ _ g1
    rw [expandStep_leftmost patterns pre NAME suf hpre2 cap1 hsuf]
    simp [s1, hfind]
  · apply expand_of_step _ _ _ _ g2
    rw [expandStep_leftmost patterns pre _ suf hpre2 cap2 hsuf]
    simp [s2, hfind]
  · apply expand_of_step _ _ _ _ g2
    rw [expandStep_leftmost patterns pre _ suf hpre2 cap3 hsuf]
    simp [s3, hfind]

theorem expand_reference_witness :
    expand "user=%\x7bNUM\x7d end".toList [("NUM".toList, "[0-9]+".toList)]
        = .ok "user=(?:[0-9]+) end".toList ∧
      expand "user=%\x7bNUM:uid\x7d end".toList [("NUM".toList, "[0-9]+".toList)]
        = .ok "user=(?<uid>[0-9]+) end".toList ∧
      expand "user=%\x7bNUM:uid:int\x7d end".toList [("NUM".toList, "[0-9]+".toList)]
        = .ok "user=(?<uid>[0-9]+) end".toList :=
  expand_reference [("NUM".toList, "[0-9]+".toList)] "NUM".toList "uid".toList "int".toList
    "[0-9]+".toList "user=".toList " end".toList rfl (by decide) (by decide) rfl (by decide)
    (by decide) (by decide)

/-- C7: `expand` is total and ends in one of three ways, each after at most 1000
substitutions: it returns the string reached after `k < 1000` substitutions, which holds
no reference; or it returns the error of the iteration that follows `k < 1000`
substitutions; or it has made 1000 substitutions and returns the recursion error.  And
when every number of substitutions leaves a string that still holds a reference, `expand`
returns the recursion error, whose text is `Deep recursion while expanding pattern` and
the pattern, and no regex. -/
theorem expand_bounded (patterns : Patterns) (pattern : Str) :
    ((∃ k r, k < 1000 ∧ substitute patterns k pattern = some r ∧
          FindStringSubmatch r = none ∧ expand pattern patterns = .ok r) ∨
        (∃ k s e, k < 1000 ∧ substitute patterns k pattern = some s ∧
          expandStep patterns s = .fail e ∧ expand pattern patterns = .error e) ∨
        ((substitute patterns 1000 pattern).isSome = true ∧
          expand pattern patterns = .error (.deepRecursion pattern))) ∧
      ((∀ k, ∃ r, substitute patterns k pattern = some r ∧ FindStringSubmatch r ≠ none) →
        expand pattern patterns = .error (.deepRecursion pattern) ∧
          (ExpandError.deepRecursion pattern).message =
            "Deep recursion while expanding pattern \x27".toList ++ pattern
              ++ "\x27.".toList) := by
  refine ⟨expandLoop_outcome patterns pattern 1000 pattern, fun h => ⟨?_, rfl⟩⟩
  obtain ⟨r, hr, _⟩ := h 1000
  exact expandLoop_exhausted patterns pattern 1000 pattern r hr

theorem expand_bounded_witness :
    expand "%\x7bA\x7d".toList
        [("A".toList, "%\x7bB\x7d".toList), ("B".toList, "%\x7bA\x7d".toList)]
      = .error (.deepRecursion "%\x7bA\x7d".toList) :=
  ((expand_bounded cycleLib (ref ['A'])).2 cycle_never_free).1

/-- C8, as stated, fails: over a chain of 1000 aliases (`A` is `%{AA}`, `AA` is `%{AAA}`,
..., the last name is `x`) the pattern `%{A}` is reference-free after exactly 1000
substitutions, all of defined and well-formed references, and `expand` returns the
recursion error. -/
theorem expand_ceiling_counterexample :
    substitute (chainLib 999 0) 1000 (ref (chainName 0))
        = some (opens 1000 ++ ['x'] ++ closes 1000) ∧
      FindStringSubmatch (opens 1000 ++ ['x'] ++ closes 1000) = none ∧
      expand (ref (chainName 0)) (chainLib 999 0)
        = .error (.deepRecursion (ref (chainName 0))) := by
  have h : substitute (chainLib 999 0) 1000 (ref (chainName 0))
      = some (opens 1000 ++ ['x'] ++ closes 1000) := by
    have := chain_substitute 999 999 0 0 rfl
    rw [show opens 0 ++ ref (chainName 0) ++ closes 0 = ref (chainName 0) from by
      simp [opens, closes]] at this
    exact this
  refine ⟨h, ?_, expandLoop_exhausted _ _ 1000 _ _ h⟩
  apply FindStringSubmatch_of_not_mem
  simp only [List.mem_append, not_or]
  exact ⟨⟨opens_not_mem 1000, by decide⟩, closes_not_mem 1000⟩

/-- C8, amended: a pattern that is reference-free after `k` substitutions with `k < 1000`
expands to that string without error; `expand` returns the recursion error exactly when
its loop can make 1000 substitutions; and a pattern with 1000 substitutions fails with the
recursion error whatever the string after the last one is, a reference-free one
included. -/
theorem expand_below_ceiling (patterns : Patterns) (pattern : Str) :
    (∀ (k : Nat) (r : Str), k < 1000 → substitute patterns k pattern = some r →
        FindStringSubmatch r = none → expand pattern patterns = .ok r) ∧
      ((∃ q, expand pattern patterns = .error (.deepRecursion q)) ↔
        (substitute patterns 1000 pattern).isSome = true) ∧
      (∀ r, substitute patterns 1000 pattern = some r →
        expand pattern patterns = .error (.deepRecursion pattern)) := by
  refine ⟨fun k r hk hs hr =>
      expandLoop_of_substitute patterns pattern k 1000 pattern r hs hr hk, ⟨?_, ?_⟩,
    fun r hr => expandLoop_exhausted patterns pattern 1000 pattern r hr⟩
  · rintro ⟨q, h⟩
    exact substitute_of_deepRecursion patterns pattern q 1000 pattern h
  · intro h
    obtain ⟨r, hr⟩ := Option.isSome_iff_exists.mp h
    exact ⟨pattern, expandLoop_exhausted patterns pattern 1000 pattern r hr⟩

theorem expand_below_ceiling_witness :
    expand "a=%\x7bWORD\x7d".toList
        [("WORD".toList, "%\x7bNUM:n\x7d".toList), ("NUM".toList, "[0-9]+".toList)]
      = .ok "a=(?:(?<n>[0-9]+))".toList :=
  (expand_below_ceiling
      [("WORD".toList, "%\x7bNUM:n\x7d".toList), ("NUM".toList, "[0-9]+".toList)]
      "a=%\x7bWORD\x7d".toList).1 2 "a=(?:(?<n>[0-9]+))".toList (by decide) rfl rfl

/-- C9: when the first colon-separated segment of the leftmost reference is not a key of
the library, `expand` returns the error `Pattern ... not defined.` naming that reference,
and no regex; this holds for any number of segments, one, two and three among them. -/
theorem expand_undefined (patterns : Patterns) (pattern pre cap rest : Str)
    (hm : FindStringSubmatch pattern = some (pre, cap, rest))
    (hund : patterns.Find ((Split cap).headD []) = none) :
    expand pattern patterns = .error (.notDefined (ref cap)) ∧
      (ExpandError.notDefined (ref cap)).message =
        "Pattern ".toList ++ ref cap ++ " not defined.".toList := by
  refine ⟨?_, rfl⟩
  apply expandLoop_fail patterns pattern pattern _ 999
  simp only [expandStep, hm, hund]

theorem expand_undefined_witness :
    expand "user=%\x7bINT:uid\x7d".toList [("NUM".toList, "[0-9]+".toList)]
        = .error (.notDefined "%\x7bINT:uid\x7d".toList) ∧
      (ExpandError.notDefined "%\x7bINT:uid\x7d".toList).message
        = "Pattern %\x7bINT:uid\x7d not defined.".toList :=
  expand_undefined [("NUM".toList, "[0-9]+".toList)] "user=%\x7bINT:uid\x7d".toList
    "user=".toList "INT:uid".toList [] rfl rfl

/-- C10, as stated, fails: `%{}` is not matched by the reference regex and is returned
unchanged without error, and a reference of four segments whose first segment is not a
key of the library gives the undefined-pattern error, not the invalid-pattern error. -/
theorem expand_invalid_counterexample :
    expand "%\x7b\x7d".toList [("NUM".toList, "[0-9]+".toList)] = .ok "%\x7b\x7d".toList ∧
      expand "%\x7bA:b:c:d\x7d".toList [("NUM".toList, "[0-9]+".toList)]
        = .error (.notDefined "%\x7bA:b:c:d\x7d".toList) :=
  ⟨rfl, rfl⟩

/-- C10, amended: when the leftmost match of the reference regex has four or more
colon-separated segments and its first segment is a key of the library, `expand` fails
with the error `... is not a valid pattern.` naming that reference. -/
theorem expand_invalid (patterns : Patterns) (pattern pre cap rest body : Str)
    (hm : FindStringSubmatch pattern = some (pre, cap, rest))
    (hlen : 4 ≤ (Split cap).length)
    (hdef : patterns.Find ((Split cap).headD []) = some body) :
    expand pattern patterns = .error (.notValid (ref cap)) ∧
      (ExpandError.notValid (ref cap)).message =
        ref cap ++ " is not a valid pattern.".toList := by
  refine ⟨?_, rfl⟩
  have h1 : (Split cap).length ≠ 1 := by omega
  have h2 : ¬ ((Split cap).length = 2 ∨ (Split cap).length = 3) := by omega
  apply expandLoop_fail patterns pattern pattern _ 999
  simp only [expandStep, hm, hdef, h1, h2, if_false]

theorem expand_invalid_witness :
    expand "%\x7bNUM:b:c:d\x7d".toList [("NUM".toList, "[0-9]+".toList)]
        = .error (.notValid "%\x7bNUM:b:c:d\x7d".toList) ∧
      (ExpandError.notValid "%\x7bNUM:b:c:d\x7d".toList).message
        = "%\x7bNUM:b:c:d\x7d is not a valid pattern.".toList :=
  expand_invalid [("NUM".toList, "[0-9]+".toList)] "%\x7bNUM:b:c:d\x7d".toList
    [] "NUM:b:c:d".toList [] "[0-9]+".toList rfl (by decide) rfl

/-! ## Lemmas on metrics -/

theorem labelValuesLoop_ok (mr : OnigurumaMatchResult) :
    ∀ (ts : List Template) (rs acc : List Str),
      List.Forall₂ (fun t r => evalTemplate mr t = .ok r) ts rs →
      labelValuesLoop mr ts acc = .ok (acc ++ rs) := by
  intro ts
  induction ts with
  | nil =>
    intro rs acc h
    cases h
    simp [labelValuesLoop]
  | cons t ts ih =>
    intro rs acc h
    cases h with
    | cons h1 h2 =>
      rw [labelValuesLoop, h1]
      simp only []
      rw [ih _ _ h2]
      simp

theorem labelValuesLoop_error (mr : OnigurumaMatchResult) :
    ∀ (ts : List Template) (acc : List Str),
      (∃ t ∈ ts, ∃ e, evalTemplate mr t = .error e) →
      ∃ e, labelValuesLoop mr ts acc = .error e := by
  intro ts
  induction ts with
  | nil => intro acc h; simp at h
  | cons t ts ih =>
    intro acc h
    rw [labelValuesLoop]
    cases ht : evalTemplate mr t with
    | error e => exact ⟨e, rfl⟩
    | ok v =>
      obtain ⟨t2, hmem, e, he⟩ := h
      simp only [List.mem_cons] at hmem
      rcases hmem with rfl | hmem
      · rw [ht] at he; cases he
      · exact ih _ ⟨t2, hmem, e, he⟩

theorem Vec.update_child_self {α : Type} (v : Vec α) (vals : List Str) (f : α → α) :
    (v.update vals f).child vals = f (v.child vals) := by
  simp [Vec.update]

theorem Vec.update_child_ne {α : Type} (v : Vec α) (vals k : List Str) (f : α → α)
    (h : k ≠ vals) : (v.update vals f).child k = v.child k := by
  simp [Vec.update, h]

theorem Vec.update_updates {α : Type} (v : Vec α) (vals : List Str) (f : α → α) :
    (v.update vals f).updates = v.updates + 1 := rfl

theorem incMetric_contract {α V : Type} (cfg : MetricConfig) (m : incMetric (Vec α))
    (hfun : OneUpdateOrError cfg m.incFunc) (S L : Str) (vec : Vec α) :
    ProcessContract m.regex cfg (none : Option (Str → Option V)) L vec (m.Process S L vec) := by
  unfold ProcessContract AtMostOneUpdate Skipped incMetric.Process
  cases hM : m.regex.Match L with
  | error e => simp
  | ok mr0 =>
    cases his : mr0.IsMatch with
    | false => simp [his]
    | true =>
      simp only [his, if_true]
      rcases hfun S mr0 vec with ⟨e, hl, hf⟩ | ⟨vals, vec2, hl, hf, hu⟩
      · simp [hf, his]
      · simp only [hf, hu, Option.map_none']
        refine ⟨?_, ?_, ?_⟩
        · exact ⟨le_refl _, Or.inr ⟨trivial, trivial⟩⟩
        · intro mr h1 h2
          cases h1
          rw [his] at h2
          cases h2
        · intro mr h1 _
          cases h1
          refine ⟨by simp, by simp, fun h => ?_⟩
          obtain ⟨e, he⟩ := labelValuesLoop_error mr0 _ [S] h
          rw [labelValues, he] at hl
          cases hl

theorem observeMetric_contract {α V : Type} (cfg : MetricConfig) (ParseFloat : Str → Option V)
    (m : observeMetric (Vec α) V) (hval : m.value = cfg.ValueTemplate)
    (hfun : ∀ v, OneUpdateOrError cfg (fun S mr vec => m.observeFunc S mr v vec))
    (S L : Str) (vec : Vec α) :
    ProcessContract m.regex cfg (some ParseFloat) L vec (m.Process ParseFloat S L vec) := by
  unfold ProcessContract AtMostOneUpdate Skipped observeMetric.Process
  cases hM : m.regex.Match L with
  | error e => simp
  | ok mr0 =>
    cases his : mr0.IsMatch with
    | false => simp [his]
    | true =>
      simp only [his, if_true]
      rw [hval]
      cases hv : evalTemplate mr0 cfg.ValueTemplate with
      | error e => simp [his]
      | ok sv =>
        simp only []
        cases hp : ParseFloat sv with
        | none => simp [hp, his]
        | some v =>
          rcases hfun v S mr0 vec with ⟨e, hl, hf⟩ | ⟨vals, vec2, hl, hf, hu⟩
          · simp only at hf
            simp [hf, his]
          · simp only at hf
            simp only [hf, hu, Option.map_none']
            refine ⟨?_, ?_, ?_⟩
            · exact ⟨le_refl _, Or.inr ⟨trivial, trivial⟩⟩
            · intro mr h1 h2
              cases h1
              rw [his] at h2
              cases h2
            · intro mr h1 _
              cases h1
              refine ⟨by simp [hv], ?_, fun h => ?_⟩
              · intro PF hPF s hs hnone
                simp only [Option.mem_def, Option.some.injEq] at hPF
                subst hPF
                rw [hv] at hs
                cases hs
                rw [hp] at hnone
                cases hnone
              · obtain ⟨e, he⟩ := labelValuesLoop_error mr0 _ [S] h
                rw [labelValues, he] at hl
                cases hl

theorem counter_incFunc {V : Type} [Zero V] [One V] [Add V] (inputLabelName : Str)
    (cfg : MetricConfig) (regex : OnigurumaRegexp) :
    OneUpdateOrError cfg
      (NewCounterMetric inputLabelName cfg regex : incMetric (Vec V)).incFunc := by
  intro S mr vec
  cases h : labelValues S mr cfg.LabelTemplates with
  | error e => exact Or.inl ⟨e, rfl, by simp [NewCounterMetric, h]⟩
  | ok vals => exact Or.inr ⟨vals, vec.Inc vals, rfl, by simp [NewCounterMetric, h], rfl⟩

theorem gauge_observeFunc {V : Type} [Zero V] [Add V] (inputLabelName : Str)
    (cfg : MetricConfig) (regex : OnigurumaRegexp)
    (v : V) :
    OneUpdateOrError cfg (fun S mr vec =>
      (NewGaugeMetric inputLabelName cfg regex : observeMetric (Vec V) V).observeFunc
        S mr v vec) := by
  intro S mr vec
  cases h : labelValues S mr cfg.LabelTemplates with
  | error e => exact Or.inl ⟨e, rfl, by simp [NewGaugeMetric, h]⟩
  | ok vals =>
    cases hc : cfg.Cumulative with
    | true =>
      exact Or.inr ⟨vals, vec.AddTo vals v, rfl, by simp [NewGaugeMetric, h, hc], rfl⟩
    | false =>
      exact Or.inr ⟨vals, vec.SetTo vals v, rfl, by simp [NewGaugeMetric, h, hc], rfl⟩

theorem histogram_observeFunc {V : Type} (inputLabelName : Str) (cfg : MetricConfig)
    (regex : OnigurumaRegexp) (v : V) :
    OneUpdateOrError cfg (fun S mr vec =>
      (NewHistogramMetric inputLabelName cfg regex : observeMetric (Vec (List V)) V).observeFunc
        S mr v vec) := by
  intro S mr vec
  cases h : labelValues S mr cfg.LabelTemplates with
  | error e => exact Or.inl ⟨e, rfl, by simp [NewHistogramMetric, h]⟩
  | ok vals =>
    exact Or.inr ⟨vals, vec.Observe vals v, rfl, by simp [NewHistogramMetric, h], rfl⟩

theorem summary_observeFunc {V : Type} (inputLabelName : Str) (cfg : MetricConfig)
    (regex : OnigurumaRegexp) (v : V) :
    OneUpdateOrError cfg (fun S mr vec =>
      (NewSummaryMetric inputLabelName cfg regex : observeMetric (Vec (List V)) V).observeFunc
        S mr v vec) := by
  intro S mr vec
  cases h : labelValues S mr cfg.LabelTemplates with
  | error e => exact Or.inl ⟨e, rfl, by simp [NewSummaryMetric, h]⟩
  | ok vals =>
    exact Or.inr ⟨vals, vec.Observe vals v, rfl, by simp [NewSummaryMetric, h], rfl⟩

/-! ## Metrics: the claims -/

/-- C1: for a counter metric, a line `L` that matches the regex and label templates that
render to `rs`, `Process(S, L)` returns `(true, nil)`, adds exactly 1 to the counter at
the label tuple `S :: rs`, and leaves the counter at every other label tuple as it was. -/
theorem counter_process {V : Type} [Zero V] [One V] [Add V] (inputLabelName : Str)
    (cfg : MetricConfig) (regex : OnigurumaRegexp)
    (S L : Str) (mr : OnigurumaMatchResult) (rs : List Str) (vec : Vec V)
    (hmatch : regex.Match L = .ok mr) (his : mr.IsMatch = true)
    (hrender : List.Forall₂ (fun t r => evalTemplate mr t = .ok r) cfg.LabelTemplates rs) :
    ∃ vec2 : Vec V,
      (NewCounterMetric inputLabelName cfg regex : incMetric (Vec V)).Process S L vec
        = (true, none, vec2) ∧
      vec2.child (S :: rs) = vec.child (S :: rs) + 1 ∧
      ∀ k, k ≠ S :: rs → vec2.child k = vec.child k := by
  have hl : labelValues S mr cfg.LabelTemplates = .ok (S :: rs) := by
    rw [labelValues, labelValuesLoop_ok mr _ rs [S] hrender]
    rfl
  refine ⟨vec.Inc (S :: rs), ?_, Vec.update_child_self _ _ _,
    fun k hk => Vec.update_child_ne _ _ _ _ hk⟩
  simp [incMetric.Process, NewCounterMetric, hmatch, his, hl]

/-- C2: for each of the four metric types, every source and every line, one call of
`Process` makes at most one update of the vector and none unless it returns `(true, nil)`;
a line that does not match gives `(false, nil)`, and on a matching line an error of the
value template, a value that does not parse and an error of a label template give
`(true, err)`, the vector being unchanged in all these cases. -/
theorem process_at_most_once {V : Type} [Zero V] [One V] [Add V]
    (ParseFloat : Str → Option V) (inputLabelName : Str)
    (cfg : MetricConfig) (regex : OnigurumaRegexp) (S L : Str) :
    (∀ vec : Vec V, ProcessContract regex cfg (none : Option (Str → Option V)) L vec
      ((NewCounterMetric inputLabelName cfg regex).Process S L vec)) ∧
    (∀ vec : Vec V, ProcessContract regex cfg (some ParseFloat) L vec
      ((NewGaugeMetric inputLabelName cfg regex).Process ParseFloat S L vec)) ∧
    (∀ vec : Vec (List V), ProcessContract regex cfg (some ParseFloat) L vec
      ((NewHistogramMetric inputLabelName cfg regex).Process ParseFloat S L vec)) ∧
    (∀ vec : Vec (List V), ProcessContract regex cfg (some ParseFloat) L vec
      ((NewSummaryMetric inputLabelName cfg regex).Process ParseFloat S L vec)) :=
  ⟨fun vec => incMetric_contract cfg (NewCounterMetric inputLabelName cfg regex)
      (counter_incFunc inputLabelName cfg regex) S L vec,
    fun vec => observeMetric_contract cfg ParseFloat (NewGaugeMetric inputLabelName cfg regex)
      rfl (gauge_observeFunc inputLabelName cfg regex) S L vec,
    fun vec => observeMetric_contract cfg ParseFloat
      (NewHistogramMetric inputLabelName cfg regex) rfl
      (histogram_observeFunc inputLabelName cfg regex) S L vec,
    fun vec => observeMetric_contract cfg ParseFloat
      (NewSummaryMetric inputLabelName cfg regex) rfl
      (summary_observeFunc inputLabelName cfg regex) S L vec⟩

/-- C4: for a gauge metric, a matching line whose value template renders to a text that
parses as `v` and label templates that render to `rs`, `Process(S, L)` returns
`(true, nil)` and sets the gauge at `S :: rs` to the old value plus `v` when `cumulative`
is true and to `v` when it is false; the gauge at every other label tuple is unchanged. -/
theorem gauge_process {V : Type} [Zero V] [Add V] (ParseFloat : Str → Option V)
    (inputLabelName : Str)
    (cfg : MetricConfig) (regex : OnigurumaRegexp)
    (S L : Str) (mr : OnigurumaMatchResult) (stringVal : Str) (v : V) (rs : List Str)
    (vec : Vec V)
    (hmatch : regex.Match L = .ok mr) (his : mr.IsMatch = true)
    (hvalue : evalTemplate mr cfg.ValueTemplate = .ok stringVal)
    (hparse : ParseFloat stringVal = some v)
    (hrender : List.Forall₂ (fun t r => evalTemplate mr t = .ok r) cfg.LabelTemplates rs) :
    ∃ vec2 : Vec V,
      (NewGaugeMetric inputLabelName cfg regex : observeMetric (Vec V) V).Process
        ParseFloat S L vec = (true, none, vec2) ∧
      vec2.child (S :: rs) = (if cfg.Cumulative then vec.child (S :: rs) + v else v) ∧
      ∀ k, k ≠ S :: rs → vec2.child k = vec.child k := by
  have hl : labelValues S mr cfg.LabelTemplates = .ok (S :: rs) := by
    rw [labelValues, labelValuesLoop_ok mr _ rs [S] hrender]
    rfl
  cases hc : cfg.Cumulative with
  | true =>
    refine ⟨vec.AddTo (S :: rs) v, ?_, by simp [Vec.AddTo, Vec.update_child_self],
      fun k hk => Vec.update_child_ne _ _ _ _ hk⟩
    simp [observeMetric.Process, NewGaugeMetric, hmatch, his, hvalue, hparse, hl, hc]
  | false =>
    refine ⟨vec.SetTo (S :: rs) v, ?_, by simp [Vec.SetTo, Vec.update_child_self],
      fun k hk => Vec.update_child_ne _ _ _ _ hk⟩
    simp [observeMetric.Process, NewGaugeMetric, hmatch, his, hvalue, hparse, hl, hc]

theorem counter_process_witness :
    ∃ vec2 : Vec Int,
      (NewCounterMetric "source".toList userCounterConfig
          (keyNumberRegexp "user=".toList "uid".toList) : incMetric (Vec Int)).Process
        "s1".toList "user=42".toList (NewValueVec ["source".toList, "uid".toList])
        = (true, none, vec2) ∧
      vec2.child ["s1".toList, "42".toList] = 0 + 1 ∧
      ∀ k, k ≠ ["s1".toList, "42".toList] → vec2.child k = 0 :=
  counter_process "source".toList userCounterConfig
    (keyNumberRegexp "user=".toList "uid".toList) "s1".toList "user=42".toList
    { IsMatch := true
      Get := fun name =>
        if name = "uid".toList then .ok ("42".toList.takeWhile Char.isDigit)
        else .error "no such group".toList }
    ["42".toList] (NewValueVec ["source".toList, "uid".toList]) rfl rfl
    (List.Forall₂.cons rfl List.Forall₂.nil)

theorem process_at_most_once_witness :
    (NewCounterMetric "source".toList userCounterConfig
        (keyNumberRegexp "user=".toList "uid".toList) : incMetric (Vec Int)).Process
      "s1".toList "hello world".toList (NewValueVec ["source".toList, "uid".toList])
      = (false, none, NewValueVec ["source".toList, "uid".toList]) :=
  ((process_at_most_once parseDigits "source".toList userCounterConfig
      (keyNumberRegexp "user=".toList "uid".toList) "s1".toList "hello world".toList).1
    (NewValueVec ["source".toList, "uid".toList])).2.1
    { IsMatch := false, Get := fun _ => .error "no match".toList } rfl rfl

/-- The gauge of scenarios 3 and 4 after the lines `val=5` and `val=7` from `s1`. -/
theorem gauge_process_witness :
    (∃ vec2 : Vec Int,
      (NewGaugeMetric "source".toList (valGaugeConfig false)
          (keyNumberRegexp "val=".toList "n".toList) : observeMetric (Vec Int) Int).Process
        parseDigits "s1".toList "val=7".toList
        ((NewGaugeMetric "source".toList (valGaugeConfig false)
          (keyNumberRegexp "val=".toList "n".toList) : observeMetric (Vec Int) Int).Process
          parseDigits "s1".toList "val=5".toList (NewValueVec ["source".toList])).2.2
        = (true, none, vec2) ∧
      vec2.child ["s1".toList] = 7 ∧
      ∀ k, k ≠ ["s1".toList] → vec2.child k = 0) ∧
    (∃ vec2 : Vec Int,
      (NewGaugeMetric "source".toList (valGaugeConfig true)
          (keyNumberRegexp "val=".toList "n".toList) : observeMetric (Vec Int) Int).Process
        parseDigits "s1".toList "val=7".toList
        ((NewGaugeMetric "source".toList (valGaugeConfig true)
          (keyNumberRegexp "val=".toList "n".toList) : observeMetric (Vec Int) Int).Process
          parseDigits "s1".toList "val=5".toList (NewValueVec ["source".toList])).2.2
        = (true, none, vec2) ∧
      vec2.child ["s1".toList] = 12 ∧
      ∀ k, k ≠ ["s1".toList] → vec2.child k = 0) := by
  constructor
  · obtain ⟨vec2, h1, h2, h3⟩ := gauge_process parseDigits "source".toList
      (valGaugeConfig false) (keyNumberRegexp "val=".toList "n".toList) "s1".toList
      "val=7".toList
      { IsMatch := true
        Get := fun name =>
          if name = "n".toList then .ok ("7".toList.takeWhile Char.isDigit)
          else .error "no such group".toList }
      "7".toList 7 []
      ((NewGaugeMetric "source".toList (valGaugeConfig false)
        (keyNumberRegexp "val=".toList "n".toList) : observeMetric (Vec Int) Int).Process
        parseDigits "s1".toList "val=5".toList (NewValueVec ["source".toList])).2.2
      rfl rfl rfl rfl List.Forall₂.nil
    refine ⟨vec2, h1, h2, fun k hk => ?_⟩
    have hk2 : ¬ k = [['s', '1']] := hk
    rw [h3 k hk]
    simp [observeMetric.Process, NewGaugeMetric, keyNumberRegexp, afterKey, evalTemplate,
      grokValuesLoop, valGaugeConfig, fieldTemplate, parseDigits, labelValues,
      labelValuesLoop, Vec.SetTo, Vec.update, NewValueVec, hk2]
  · obtain ⟨vec2, h1, h2, h3⟩ := gauge_process parseDigits "source".toList
      (valGaugeConfig true) (keyNumberRegexp "val=".toList "n".toList) "s1".toList
      "val=7".toList
      { IsMatch := true
        Get := fun name =>
          if name = "n".toList then .ok ("7".toList.takeWhile Char.isDigit)
          else .error "no such group".toList }
      "7".toList 7 []
      ((NewGaugeMetric "source".toList (valGaugeConfig true)
        (keyNumberRegexp "val=".toList "n".toList) : observeMetric (Vec Int) Int).Process
        parseDigits "s1".toList "val=5".toList (NewValueVec ["source".toList])).2.2
      rfl rfl rfl rfl List.Forall₂.nil
    refine ⟨vec2, h1, ?_, fun k hk => ?_⟩
    · rw [h2]
      rfl
    · have hk2 : ¬ k = [['s', '1']] := hk
      rw [h3 k hk]
      simp [observeMetric.Process, NewGaugeMetric, keyNumberRegexp, afterKey, evalTemplate,
        grokValuesLoop, valGaugeConfig, fieldTemplate, parseDigits, labelValues,
        labelValuesLoop, Vec.AddTo, Vec.update, NewValueVec, hk2]

/-! ## The dispatch loop -/

theorem lineMetric_spec {W V : Type} [One V] [Add V] [IntCast V] (clock : Nat → Int)
    (line : MultipleFilesTailerEvent) (metric : Metric W) (st : W × Monitoring V × Bool) :
    (lineMetric clock line metric st).1
        = (metric.Process line.InputLabelValue line.Line st.1).2.2 ∧
      (lineMetric clock line metric st).2.1.nLinesTotal = st.2.1.nLinesTotal ∧
      (lineMetric clock line metric st).2.2
        = ((metric.Process line.InputLabelValue line.Line st.1).1 || st.2.2) := by
  unfold lineMetric
  rcases hp : metric.Process line.InputLabelValue line.Line st.1 with ⟨matched, err, w⟩
  cases matched <;> cases err <;> simp

theorem lineLoop_spec {W V : Type} [One V] [Add V] [IntCast V] (clock : Nat → Int)
    (line : MultipleFilesTailerEvent) :
    ∀ (metrics : List (Metric W)) (st : W × Monitoring V × Bool),
      (lineLoop clock line metrics st).2.1.nLinesTotal = st.2.1.nLinesTotal ∧
      (lineLoop clock line metrics st).2.2
        = (st.2.2 ||
          (processResults line.InputLabelValue line.Line metrics st.1).any (fun r => r.1)) := by
  intro metrics
  induction metrics with
  | nil => intro st; simp [lineLoop, processResults]
  | cons metric metrics ih =>
    intro st
    obtain ⟨h1, h2, h3⟩ := lineMetric_spec clock line metric st
    obtain ⟨i1, i2⟩ := ih (lineMetric clock line metric st)
    rw [lineLoop, i1, i2, h1, h2, h3, processResults]
    rcases metric.Process line.InputLabelValue line.Line st.1 with ⟨matched, err, w⟩
    refine ⟨rfl, ?_⟩
    simp only [List.any_cons]
    cases matched <;> cases st.2.2 <;> simp

/-- C3: one iteration of the dispatch loop on a line event `(S, L)`, for every list of
metrics, the empty one included, adds exactly 1 to exactly one child of `lines_total`, by
one update call: the child `(S, matched)` when some call of `Process` returned
`matched = true`, the child `(S, ignored)` otherwise; every other child of `lines_total`
is unchanged, however many metrics matched. -/
theorem dispatchLine_lines_total {W V : Type} [One V] [Add V] [IntCast V]
    (clock : Nat → Int) (metrics : List (Metric W)) (line : MultipleFilesTailerEvent)
    (w : W) (mon : Monitoring V) :
    ∃ status : Str,
      status = (if (processResults line.InputLabelValue line.Line metrics w).any
          (fun r => r.1) = true
        then number_of_lines_matched_label else number_of_lines_ignored_label) ∧
      (dispatchLine clock metrics line w mon).2.nLinesTotal.child
          [line.InputLabelValue, status]
        = mon.nLinesTotal.child [line.InputLabelValue, status] + 1 ∧
      (∀ k, k ≠ [line.InputLabelValue, status] →
        (dispatchLine clock metrics line w mon).2.nLinesTotal.child k
          = mon.nLinesTotal.child k) ∧
      (dispatchLine clock metrics line w mon).2.nLinesTotal.updates
        = mon.nLinesTotal.updates + 1 := by
  obtain ⟨h1, h2⟩ := lineLoop_spec clock line metrics (w, mon, false)
  simp only [Bool.false_or] at h2
  unfold dispatchLine
  rcases hl : lineLoop clock line metrics (w, mon, false) with ⟨w2, mon2, matched⟩
  rw [hl] at h1 h2
  simp only at h1 h2
  rw [← h2]
  cases matched with
  | true =>
    refine ⟨number_of_lines_matched_label, by simp, ?_, ?_, ?_⟩
    · simp only [if_true, Vec.Inc, Vec.update_child_self, h1]
    · intro k hk
      simp only [if_true, Vec.Inc, Vec.update_child_ne _ _ _ _ hk, h1]
    · simp only [if_true, Vec.Inc, Vec.update_updates, h1]
  | false =>
    refine ⟨number_of_lines_ignored_label, by simp, ?_, ?_, ?_⟩
    · simp only [Bool.false_eq_true, if_false, Vec.Inc, Vec.update_child_self, h1]
    · intro k hk
      simp only [Bool.false_eq_true, if_false, Vec.Inc, Vec.update_child_ne _ _ _ _ hk, h1]
    · simp only [Bool.false_eq_true, if_false, Vec.Inc, Vec.update_updates, h1]

/-! ## Label names and label values -/

theorem prometheusLabelsLoop_eq :
    ∀ (ts : List Template) (acc : List Str),
      prometheusLabelsLoop ts acc = acc ++ ts.map (fun t => t.Name) := by
  intro ts
  induction ts with
  | nil => intro acc; simp [prometheusLabelsLoop]
  | cons t ts ih => intro acc; simp [prometheusLabelsLoop, ih]

theorem labelValuesLoop_inv (mr : OnigurumaMatchResult) :
    ∀ (ts : List Template) (acc vals : List Str),
      labelValuesLoop mr ts acc = .ok vals →
      ∃ rs, vals = acc ++ rs ∧ List.Forall₂ (fun t r => evalTemplate mr t = .ok r) ts rs := by
  intro ts
  induction ts with
  | nil =>
    intro acc vals h
    simp only [labelValuesLoop, Except.ok.injEq] at h
    exact ⟨[], by simp [h], List.Forall₂.nil⟩
  | cons t ts ih =>
    intro acc vals h
    rw [labelValuesLoop] at h
    cases ht : evalTemplate mr t with
    | error e => rw [ht] at h; cases h
    | ok v =>
      rw [ht] at h
      obtain ⟨rs, h1, h2⟩ := ih _ _ h
      exact ⟨v :: rs, by simp [h1], List.Forall₂.cons ht h2⟩

/-- C12: `prometheusLabels` returns the input label name followed by the names of the
templates, and `labelValues`, when every template renders, returns the source id followed
by the renderings, in the order of the templates; both lists have one element more than
there are templates, and the value after the source id at each position is the rendering
of the template whose name stands at that position. -/
theorem labels_aligned (inputLabelName S : Str) (mr : OnigurumaMatchResult)
    (ts : List Template) :
    prometheusLabels inputLabelName ts = inputLabelName :: ts.map (fun t => t.Name) ∧
      (prometheusLabels inputLabelName ts).length = ts.length + 1 ∧
      (∀ rs, List.Forall₂ (fun t r => evalTemplate mr t = .ok r) ts rs →
        labelValues S mr ts = .ok (S :: rs) ∧ (S :: rs).length = ts.length + 1) ∧
      (∀ vals, labelValues S mr ts = .ok vals →
        vals.length = (prometheusLabels inputLabelName ts).length ∧
        ∃ rs, vals = S :: rs ∧
          List.Forall₂ (fun t r => evalTemplate mr t = .ok r) ts rs) := by
  have hp : prometheusLabels inputLabelName ts = inputLabelName :: ts.map (fun t => t.Name) := by
    rw [prometheusLabels, prometheusLabelsLoop_eq]
    rfl
  refine ⟨hp, by simp [hp], fun rs h => ⟨?_, ?_⟩, fun vals h => ?_⟩
  · rw [labelValues, labelValuesLoop_ok mr ts rs [S] h]
    rfl
  · simp [h.length_eq]
  · obtain ⟨rs, h1, h2⟩ := labelValuesLoop_inv mr ts [S] vals h
    refine ⟨?_, rs, by simpa using h1, h2⟩
    rw [h1, hp]
    simp [h2.length_eq]

theorem labels_aligned_witness :
    prometheusLabels "source".toList userCounterConfig.LabelTemplates
        = ["source".toList, "uid".toList] ∧
      labelValues "s1".toList
          { IsMatch := true
            Get := fun name =>
              if name = "uid".toList then .ok "42".toList else .error "no such group".toList }
          userCounterConfig.LabelTemplates
        = .ok ["s1".toList, "42".toList] :=
  ⟨(labels_aligned "source".toList "s1".toList
      { IsMatch := true
        Get := fun name =>
          if name = "uid".toList then .ok "42".toList else .error "no such group".toList }
      userCounterConfig.LabelTemplates).1,
    ((labels_aligned "source".toList "s1".toList
      { IsMatch := true
        Get := fun name =>
          if name = "uid".toList then .ok "42".toList else .error "no such group".toList }
      userCounterConfig.LabelTemplates).2.2.1 ["42".toList]
      (List.Forall₂.cons rfl List.Forall₂.nil)).1⟩

/-! ## The fan-in worker -/

theorem Worker.step_running (c : SelectCase) (wk wk2 : Worker)
    (h : wk.step c = some wk2) : wk2.running = true := by
  unfold Worker.step at h
  cases hr : wk.running with
  | false => simp [hr] at h
  | true =>
    simp only [hr, Bool.true_eq_false, if_false] at h
    cases c with
    | line =>
      simp only at h
      split at h
      · cases h
      · simp only [Option.some.injEq] at h
        rw [← h]
    | error =>
      simp only at h
      split at h
      · cases h
      · simp only [Option.some.injEq] at h
        rw [← h]
    | done =>
      simp only at h
      split at h
      · simp only [Option.some.injEq] at h
        rw [← h]
      · cases h

/-- C13 fails on the code: after `Close`, a worker that takes the case `done` calls
`Close` on its tailer and is still in its loop; taking the case `done` again it calls
`Close` a second time, and it then still forwards a line of its tailer. -/
theorem worker_done_stays_in_loop :
    (exampleWorker.Close.step .done).map (fun wk => (wk.tail.closeCalls, wk.running))
        = some (1, true) ∧
      (Worker.run [.done, .done, .line] exampleWorker.Close).map
          (fun wk => (wk.tail.closeCalls, wk.lines.map (fun e => e.Line), wk.running))
        = some (2, ["late line".toList], true) :=
  ⟨rfl, rfl⟩

/-! ## The migration of the configuration -/

theorem migrate_of_metrics {F : Type} (v1cfg : v1.Config F) (m : v1.MetricConfig F)
    (ms : List (v1.MetricConfig F)) (h : v1cfg.Metrics = some (m :: ms)) :
    ∃ v3cfg, v1cfg.migrate = some v3cfg ∧
      v3cfg.Global.map (fun g => g.ConfigVersion) = some 3 ∧
      v3cfg.Metrics = some ((m :: ms).map v1.convertMetric) := by
  simp [v1.Config.migrate, v1.Config.ToV2, v2.Config.ToV3, v2.convertMetricsConfig,
    v1.convertMetrics, v2.makeGlobalConfig, h]

/-- C16 fails on the code: for a version 1 configuration with no metrics section `ToV2`
dereferences the `nil` pointer, and for one with an empty metrics list `ToV2` returns a
version 2 configuration whose `Metrics` is `nil`, which `ToV3` dereferences; in both
cases the migration panics. -/
theorem migrate_without_metrics :
    (exampleV1Config none).ToV2.isNone = true ∧
      (exampleV1Config none).migrate.isNone = true ∧
      (exampleV1Config (some [])).ToV2.map (fun c => c.Metrics.isNone) = some true ∧
      (exampleV1Config (some [])).migrate.isNone = true ∧
      ((exampleV1Config (some [exampleV1Metric])).migrate.map
          (fun c => (c.Global.map (fun g => g.ConfigVersion),
            c.Metrics.map (fun ms => ms.map (fun m => m.Name)))))
        = some (some 3, some ["test_count_total".toList]) :=
  ⟨rfl, rfl, rfl, rfl, rfl⟩

/-! ## One substitution step replaces every occurrence -/

theorem scanLazy_inv :
    ∀ (cs cap rest : Str), scanLazy cs = some (cap, rest) →
      cs = cap ++ '}' :: rest ∧ ∀ c ∈ cap, c ≠ '}' ∧ c ≠ Char.ofNat 10 := by
  intro cs
  induction cs with
  | nil => intro cap rest h; simp [scanLazy] at h
  | cons c cs ih =>
    intro cap rest h
    rw [scanLazy] at h
    split_ifs at h with h1 h2
    · simp only [Option.some.injEq, Prod.mk.injEq] at h
      obtain ⟨rfl, rfl⟩ := h
      simp [h1]
    · cases hs : scanLazy cs with
      | none => rw [hs] at h; simp at h
      | some x =>
        obtain ⟨cap2, rest2⟩ := x
        rw [hs] at h
        simp only [Option.some.injEq, Prod.mk.injEq] at h
        obtain ⟨rfl, rfl⟩ := h
        obtain ⟨e, hall⟩ := ih cap2 rest2 hs
        refine ⟨by rw [e]; rfl, fun d hd => ?_⟩
        simp only [List.mem_cons] at hd
        rcases hd with rfl | hd
        · exact ⟨h1, h2⟩
        · exact hall d hd

theorem matchHere_inv (t cap rest : Str) (h : matchHere t = some (cap, rest)) :
    t = ref cap ++ rest ∧ ∀ r2, matchHere (ref cap ++ r2) = some (cap, r2) := by
  match t, h with
  | c0 :: c1 :: c2 :: cs, h =>
    simp only [matchHere] at h
    split_ifs at h with hc
    cases hs : scanLazy cs with
    | none => rw [hs] at h; simp at h
    | some x =>
      obtain ⟨cap2, rest2⟩ := x
      rw [hs] at h
      simp only [Option.some.injEq, Prod.mk.injEq] at h
      obtain ⟨rfl, rfl⟩ := h
      obtain ⟨e, hall⟩ := scanLazy_inv cs cap2 rest2 hs
      refine ⟨by rw [hc.1, hc.2.1, e]; simp [ref], fun r2 => ?_⟩
      have hscan := scanLazy_capture cap2 r2 hall
      simp only [ref, List.cons_append, List.append_assoc, List.singleton_append, matchHere,
        hc.2.2, ne_eq, not_false_eq_true, and_self, if_true, List.nil_append]
      rw [hscan]

theorem FindStringSubmatch_inv (new : Str) :
    ∀ (s pre cap rest : Str), FindStringSubmatch s = some (pre, cap, rest) →
      s = pre ++ ref cap ++ rest ∧
      (∀ r2, matchHere (ref cap ++ r2) = some (cap, r2)) ∧
      replaceFrom (ref cap) new 0 s = pre ++ new ++ replaceFrom (ref cap) new 0 rest := by
  intro s
  induction s with
  | nil => intro pre cap rest h; simp [FindStringSubmatch] at h
  | cons c cs ih =>
    intro pre cap rest h
    rw [FindStringSubmatch] at h
    cases hm : matchHere (c :: cs) with
    | some x =>
      obtain ⟨cap2, rest2⟩ := x
      rw [hm] at h
      simp only [Option.some.injEq, Prod.mk.injEq] at h
      obtain ⟨rfl, rfl, rfl⟩ := h
      obtain ⟨e, hall⟩ := matchHere_inv _ _ _ hm
      refine ⟨by simpa using e, hall, ?_⟩
      rw [e, replaceFrom_occurrence _ _ _ (by simp [ref])]
      rfl
    | none =>
      rw [hm] at h
      cases hf : FindStringSubmatch cs with
      | none => rw [hf] at h; simp at h
      | some y =>
        obtain ⟨pre2, cap2, rest2⟩ := y
        rw [hf] at h
        simp only [Option.some.injEq, Prod.mk.injEq] at h
        obtain ⟨rfl, rfl, rfl⟩ := h
        obtain ⟨e, hall, hrep⟩ := ih pre2 cap2 rest2 hf
        have hn : ¬ ref cap2 <+: c :: cs := by
          rintro ⟨t, ht⟩
          rw [← ht, hall t] at hm
          cases hm
        refine ⟨by rw [e]; simp, hall, ?_⟩
        rw [replaceFrom_cons_of_no_occurrence _ _ _ _ hn, hrep]
        simp

theorem replaceFrom_repeatStr (old new : Str) (h : old ≠ []) :
    ∀ n, replaceFrom old new 0 (repeatStr n old) = repeatStr n new := by
  intro n
  induction n with
  | zero => rfl
  | succ n ih => rw [repeatStr, replaceFrom_occurrence old new _ h, ih, repeatStr]

theorem FindStringSubmatch_repeat_group (mid : Str) (hmid : hasOpen mid = false) :
    ∀ n, FindStringSubmatch (repeatStr n ('(' :: mid ++ [')'])) = none := by
  intro n
  induction n with
  | zero => rfl
  | succ n ih =>
    have := FindStringSubmatch_group [] mid (repeatStr n ('(' :: mid ++ [')'])) rfl hmid ih
    simpa [repeatStr] using this

/-- C14, as stated, fails: on `%{A}-%{A}` one substitution step rewrites both occurrences,
so the text after the leftmost occurrence is not carried over, and the pattern takes one
substitution step, not two. -/
theorem expandStep_counterexample :
    expandStep [("A".toList, "x".toList)] "%\x7bA\x7d-%\x7bA\x7d".toList
        = .next "(?:x)-(?:x)".toList ∧
      substitutions [("A".toList, "x".toList)] 1000 "%\x7bA\x7d-%\x7bA\x7d".toList = 1 ∧
      expand "%\x7bA\x7d-%\x7bA\x7d".toList [("A".toList, "x".toList)]
        = .ok "(?:x)-(?:x)".toList :=
  ⟨rfl, rfl, rfl⟩

/-- C14, amended: a substitution step rewrites every occurrence of the text of the
leftmost reference: the text before the leftmost occurrence is carried over unchanged and
in the text after it every further occurrence is replaced too; so a pattern made of
`n + 1` occurrences of the same reference `%{NAME}` with a reference-free body takes one
substitution step. -/
theorem expandStep_replaces_all (patterns : Patterns) :
    (∀ (s pre cap rest r : Str), FindStringSubmatch s = some (pre, cap, rest) →
      expandStep patterns s = .next r →
      s = pre ++ ref cap ++ rest ∧
        ∃ new, r = pre ++ new ++ replaceFrom (ref cap) new 0 rest) ∧
    (∀ (n : Nat) (NAME BODY : Str), patterns.Find NAME = some BODY → NAME ≠ [] →
      (∀ c ∈ NAME, c ≠ ':' ∧ c ≠ '}' ∧ c ≠ Char.ofNat 10) →
      ¬ ['%', '{'] <:+: BODY →
      expandStep patterns (repeatStr (n + 1) (ref NAME))
          = .next (repeatStr (n + 1) ("(?:".toList ++ BODY ++ ")".toList)) ∧
        substitutions patterns 1000 (repeatStr (n + 1) (ref NAME)) = 1 ∧
        expand (repeatStr (n + 1) (ref NAME)) patterns
          = .ok (repeatStr (n + 1) ("(?:".toList ++ BODY ++ ")".toList))) := by
  constructor
  · intro s pre cap rest r hm hstep
    have hne : ref cap ≠ [] := by simp [ref]
    refine ⟨(FindStringSubmatch_inv [] s pre cap rest hm).1, ?_⟩
    simp only [expandStep, hm] at hstep
    split at hstep
    · cases hstep
    · split_ifs at hstep
      · simp only [Step.next.injEq] at hstep
        exact ⟨_, by rw [← hstep, Replace, if_neg hne,
          (FindStringSubmatch_inv _ s pre cap rest hm).2.2]⟩
      · simp only [Step.next.injEq] at hstep
        exact ⟨_, by rw [← hstep, Replace, if_neg hne,
          (FindStringSubmatch_inv _ s pre cap rest hm).2.2]⟩
  · intro n NAME BODY hfind hname hseg hbody
    have hne : ref NAME ≠ [] := by simp [ref]
    have hcap : Capture NAME := ⟨hname, fun c hc => ⟨(hseg c hc).2.1, (hseg c hc).2.2⟩⟩
    have hcolon : ':' ∉ NAME := fun hm => (hseg _ hm).1 rfl
    have hm : FindStringSubmatch (repeatStr (n + 1) (ref NAME))
        = some ([], NAME, repeatStr n (ref NAME)) := by
      rw [repeatStr, FindStringSubmatch_ref NAME _ hcap]
    have hstep : expandStep patterns (repeatStr (n + 1) (ref NAME))
        = .next (repeatStr (n + 1) ("(?:".toList ++ BODY ++ ")".toList)) := by
      simp only [expandStep, hm, Split_of_not_mem NAME hcolon, List.headD_cons, hfind,
        List.length_singleton, if_true, Replace, if_neg hne]
      rw [replaceFrom_repeatStr _ _ hne]
    have hfree : FindStringSubmatch (repeatStr (n + 1) ("(?:".toList ++ BODY ++ ")".toList))
        = none := by
      have := FindStringSubmatch_repeat_group ('?' :: ':' :: BODY)
        (by
          rw [hasOpen_cons_ne _ _ (by decide), hasOpen_cons_ne _ _ (by decide)]
          exact hasOpen_eq_false_of_not_infix BODY hbody)
        (n + 1)
      exact this
    refine ⟨hstep, ?_, expand_of_step patterns _ _ hstep hfree⟩
    have hdone : expandStep patterns (repeatStr (n + 1) ("(?:".toList ++ BODY ++ ")".toList))
        = .done (repeatStr (n + 1) ("(?:".toList ++ BODY ++ ")".toList)) := by
      simp only [expandStep, hfree]
    show substitutions patterns (999 + 1) _ = 1
    rw [substitutions, hstep]
    show substitutions patterns (998 + 1) _ + 1 = 1
    rw [substitutions, hdone]

theorem expandStep_replaces_all_witness :
    expandStep [("NUM".toList, "[0-9]+".toList)]
          "%\x7bNUM\x7d%\x7bNUM\x7d%\x7bNUM\x7d".toList
        = .next "(?:[0-9]+)(?:[0-9]+)(?:[0-9]+)".toList ∧
      substitutions [("NUM".toList, "[0-9]+".toList)] 1000
          "%\x7bNUM\x7d%\x7bNUM\x7d%\x7bNUM\x7d".toList = 1 ∧
      expand "%\x7bNUM\x7d%\x7bNUM\x7d%\x7bNUM\x7d".toList [("NUM".toList, "[0-9]+".toList)]
        = .ok "(?:[0-9]+)(?:[0-9]+)(?:[0-9]+)".toList :=
  (expandStep_replaces_all [("NUM".toList, "[0-9]+".toList)]).2 2 "NUM".toList
    "[0-9]+".toList rfl (by decide) (by decide) (by decide)

/-! ## The dispatch loop: the counters of a metric -/

theorem lineLoop_append {W V : Type} [One V] [Add V] [IntCast V] (clock : Nat → Int)
    (line : MultipleFilesTailerEvent) :
    ∀ (a b : List (Metric W)) (st : W × Monitoring V × Bool),
      lineLoop clock line (a ++ b) st = lineLoop clock line b (lineLoop clock line a st) := by
  intro a
  induction a with
  | nil => intro b st; rfl
  | cons m a ih => intro b st; simp [lineLoop, ih]

/-- What the body of the metric loop does to the state of the metrics, to the number of
clock readings and to the three counters of the metric. -/
theorem lineMetric_own {W V : Type} [One V] [Add V] [IntCast V] (clock : Nat → Int)
    (line : MultipleFilesTailerEvent) (metric : Metric W) (st : W × Monitoring V × Bool) :
    (lineMetric clock line metric st).1
        = (metric.Process line.InputLabelValue line.Line st.1).2.2 ∧
      (lineMetric clock line metric st).2.1.clockReads
        = st.2.1.clockReads + 1 +
          (if (metric.Process line.InputLabelValue line.Line st.1).1 = true then 1 else 0) ∧
      (lineMetric clock line metric st).2.1.nErrorsByMetric.child
          [line.InputLabelValue, metric.Name]
        = (if (metric.Process line.InputLabelValue line.Line st.1).2.1.isSome = true
          then st.2.1.nErrorsByMetric.child [line.InputLabelValue, metric.Name] + 1
          else st.2.1.nErrorsByMetric.child [line.InputLabelValue, metric.Name]) ∧
      (lineMetric clock line metric st).2.1.nMatchesByMetric.child
          [line.InputLabelValue, metric.Name]
        = (if (metric.Process line.InputLabelValue line.Line st.1).1 = true
          then st.2.1.nMatchesByMetric.child [line.InputLabelValue, metric.Name] + 1
          else st.2.1.nMatchesByMetric.child [line.InputLabelValue, metric.Name]) ∧
      (lineMetric clock line metric st).2.1.procTimeMicrosecondsByMetric.child
          [line.InputLabelValue, metric.Name]
        = (if (metric.Process line.InputLabelValue line.Line st.1).1 = true
          then st.2.1.procTimeMicrosecondsByMetric.child [line.InputLabelValue, metric.Name]
            + ((Int.tdiv (clock (st.2.1.clockReads + 1) - clock st.2.1.clockReads) 1000 : Int)
              : V)
          else st.2.1.procTimeMicrosecondsByMetric.child
            [line.InputLabelValue, metric.Name]) := by
  unfold lineMetric
  rcases hp : metric.Process line.InputLabelValue line.Line st.1 with ⟨matched, err, w⟩
  cases matched <;> cases err <;>
    simp [Vec.Inc, Vec.AddTo, Vec.update]

/-- The body of the metric loop leaves the counters of every other key as they were. -/
theorem lineMetric_frame {W V : Type} [One V] [Add V] [IntCast V] (clock : Nat → Int)
    (line : MultipleFilesTailerEvent) (metric : Metric W) (st : W × Monitoring V × Bool)
    (k : List Str) (hk : k ≠ [line.InputLabelValue, metric.Name]) :
    (lineMetric clock line metric st).2.1.nErrorsByMetric.child k
        = st.2.1.nErrorsByMetric.child k ∧
      (lineMetric clock line metric st).2.1.nMatchesByMetric.child k
        = st.2.1.nMatchesByMetric.child k ∧
      (lineMetric clock line metric st).2.1.procTimeMicrosecondsByMetric.child k
        = st.2.1.procTimeMicrosecondsByMetric.child k := by
  unfold lineMetric
  rcases hp : metric.Process line.InputLabelValue line.Line st.1 with ⟨matched, err, w⟩
  cases matched <;> cases err <;>
    simp [Vec.Inc, Vec.AddTo, Vec.update, hk]

theorem lineLoop_frame {W V : Type} [One V] [Add V] [IntCast V] (clock : Nat → Int)
    (line : MultipleFilesTailerEvent) (k : List Str) :
    ∀ (metrics : List (Metric W)) (st : W × Monitoring V × Bool),
      (∀ M ∈ metrics, k ≠ [line.InputLabelValue, M.Name]) →
      (lineLoop clock line metrics st).2.1.nErrorsByMetric.child k
          = st.2.1.nErrorsByMetric.child k ∧
        (lineLoop clock line metrics st).2.1.nMatchesByMetric.child k
          = st.2.1.nMatchesByMetric.child k ∧
        (lineLoop clock line metrics st).2.1.procTimeMicrosecondsByMetric.child k
          = st.2.1.procTimeMicrosecondsByMetric.child k := by
  intro metrics
  induction metrics with
  | nil => intro st _; exact ⟨rfl, rfl, rfl⟩
  | cons m ms ih =>
    intro st h
    obtain ⟨f1, f2, f3⟩ := lineMetric_frame clock line m st k (h m (List.mem_cons_self _ _))
    obtain ⟨i1, i2, i3⟩ := ih (lineMetric clock line m st)
      (fun M hM => h M (List.mem_cons_of_mem _ hM))
    rw [lineLoop, i1, i2, i3, f1, f2, f3]
    exact ⟨rfl, rfl, rfl⟩

theorem matchCount_cons {W : Type} (S L : Str) (m : Metric W) (ms : List (Metric W)) (w : W) :
    matchCount S L (m :: ms) w
      = (if (m.Process S L w).1 = true then 1 else 0)
        + matchCount S L ms (m.Process S L w).2.2 := by
  unfold matchCount
  rw [processResults]
  rcases m.Process S L w with ⟨matched, err, w2⟩
  cases matched
  · simp
  · simp
    omega

theorem lineLoop_world {W V : Type} [One V] [Add V] [IntCast V] (clock : Nat → Int)
    (line : MultipleFilesTailerEvent) :
    ∀ (metrics : List (Metric W)) (st : W × Monitoring V × Bool),
      (lineLoop clock line metrics st).1
          = processWorld line.InputLabelValue line.Line metrics st.1 ∧
        (lineLoop clock line metrics st).2.1.clockReads
          = st.2.1.clockReads + metrics.length
            + matchCount line.InputLabelValue line.Line metrics st.1 := by
  intro metrics
  induction metrics with
  | nil => intro st; simp [lineLoop, processWorld, matchCount, processResults]
  | cons m ms ih =>
    intro st
    obtain ⟨o1, o2, _⟩ := lineMetric_own clock line m st
    obtain ⟨i1, i2⟩ := ih (lineMetric clock line m st)
    rw [lineLoop, i1, i2, o1, o2, processWorld, matchCount_cons]
    refine ⟨rfl, ?_⟩
    simp only [List.length_cons]
    omega

theorem dispatchLine_eq_lineLoop {W V : Type} [One V] [Add V] [IntCast V]
    (clock : Nat → Int) (metrics : List (Metric W)) (line : MultipleFilesTailerEvent)
    (w : W) (mon : Monitoring V) :
    (dispatchLine clock metrics line w mon).1 = (lineLoop clock line metrics (w, mon, false)).1 ∧
      (dispatchLine clock metrics line w mon).2.nErrorsByMetric
        = (lineLoop clock line metrics (w, mon, false)).2.1.nErrorsByMetric ∧
      (dispatchLine clock metrics line w mon).2.nMatchesByMetric
        = (lineLoop clock line metrics (w, mon, false)).2.1.nMatchesByMetric ∧
      (dispatchLine clock metrics line w mon).2.procTimeMicrosecondsByMetric
        = (lineLoop clock line metrics (w, mon, false)).2.1.procTimeMicrosecondsByMetric := by
  unfold dispatchLine
  rcases lineLoop clock line metrics (w, mon, false) with ⟨w2, mon2, matched⟩
  cases matched <;> simp

/-- The counters of the metric `M` after the metric loop on `pre ++ M :: post`, the names
of the metrics being distinct. -/
theorem lineLoop_at {W V : Type} [One V] [Add V] [IntCast V] (clock : Nat → Int)
    (line : MultipleFilesTailerEvent) (pre post : List (Metric W)) (M : Metric W)
    (st : W × Monitoring V × Bool)
    (hnames : ((pre ++ M :: post).map (fun m => m.Name)).Nodup) :
    (lineLoop clock line (pre ++ M :: post) st).2.1.nErrorsByMetric.child
          [line.InputLabelValue, M.Name]
        = (lineMetric clock line M (lineLoop clock line pre st)).2.1.nErrorsByMetric.child
          [line.InputLabelValue, M.Name] ∧
      (lineLoop clock line (pre ++ M :: post) st).2.1.nMatchesByMetric.child
          [line.InputLabelValue, M.Name]
        = (lineMetric clock line M (lineLoop clock line pre st)).2.1.nMatchesByMetric.child
          [line.InputLabelValue, M.Name] ∧
      (lineLoop clock line (pre ++ M :: post) st).2.1.procTimeMicrosecondsByMetric.child
          [line.InputLabelValue, M.Name]
        = (lineMetric clock line M
            (lineLoop clock line pre st)).2.1.procTimeMicrosecondsByMetric.child
          [line.InputLabelValue, M.Name] ∧
      (lineLoop clock line pre st).2.1.nErrorsByMetric.child [line.InputLabelValue, M.Name]
        = st.2.1.nErrorsByMetric.child [line.InputLabelValue, M.Name] ∧
      (lineLoop clock line pre st).2.1.nMatchesByMetric.child [line.InputLabelValue, M.Name]
        = st.2.1.nMatchesByMetric.child [line.InputLabelValue, M.Name] ∧
      (lineLoop clock line pre st).2.1.procTimeMicrosecondsByMetric.child
          [line.InputLabelValue, M.Name]
        = st.2.1.procTimeMicrosecondsByMetric.child [line.InputLabelValue, M.Name] := by
  rw [List.map_append, List.map_cons, List.nodup_append] at hnames
  obtain ⟨_, h2, h3⟩ := hnames
  rw [List.nodup_cons] at h2
  have hpost : ∀ M2 ∈ post,
      [line.InputLabelValue, M.Name] ≠ [line.InputLabelValue, M2.Name] := by
    intro M2 hM2 e
    simp only [List.cons.injEq, and_true, true_and] at e
    exact h2.1 (by rw [e]; exact List.mem_map_of_mem _ hM2)
  have hpre : ∀ M2 ∈ pre,
      [line.InputLabelValue, M.Name] ≠ [line.InputLabelValue, M2.Name] := by
    intro M2 hM2 e
    simp only [List.cons.injEq, and_true, true_and] at e
    exact h3 (List.mem_map_of_mem _ hM2) (by rw [← e]; exact List.mem_cons_self _ _)
  obtain ⟨p1, p2, p3⟩ := lineLoop_frame clock line _ post
    (lineMetric clock line M (lineLoop clock line pre st)) hpost
  obtain ⟨q1, q2, q3⟩ := lineLoop_frame clock line _ pre st hpre
  rw [lineLoop_append, lineLoop]
  exact ⟨p1, p2, p3, q1, q2, q3⟩

/-- C11: one iteration of the dispatch loop on a line event `(S, L)` calls `Process(S, L)`
on every metric once, in declared order, each call on the state the call before it left,
whatever errors the earlier calls returned; for each metric `M` the counter
`errors{S, M}` goes up by 1 when the call on `M` returned an error and stays otherwise,
and `matches{S, M}` goes up by 1 when it returned `matched = true` and stays otherwise;
the counters of every other pair are unchanged.  The names of the metrics are distinct,
as they are for registered metrics. -/
theorem dispatchLine_errors_matches {W V : Type} [One V] [Add V] [IntCast V]
    (clock : Nat → Int) (metrics : List (Metric W)) (line : MultipleFilesTailerEvent)
    (w : W) (mon : Monitoring V)
    (hnames : (metrics.map (fun m => m.Name)).Nodup) :
    (dispatchLine clock metrics line w mon).1
        = processWorld line.InputLabelValue line.Line metrics w ∧
      (∀ (pre post : List (Metric W)) (M : Metric W), metrics = pre ++ M :: post →
        (dispatchLine clock metrics line w mon).2.nErrorsByMetric.child
            [line.InputLabelValue, M.Name]
          = (if (M.Process line.InputLabelValue line.Line
                (processWorld line.InputLabelValue line.Line pre w)).2.1.isSome = true
            then mon.nErrorsByMetric.child [line.InputLabelValue, M.Name] + 1
            else mon.nErrorsByMetric.child [line.InputLabelValue, M.Name]) ∧
        (dispatchLine clock metrics line w mon).2.nMatchesByMetric.child
            [line.InputLabelValue, M.Name]
          = (if (M.Process line.InputLabelValue line.Line
                (processWorld line.InputLabelValue line.Line pre w)).1 = true
            then mon.nMatchesByMetric.child [line.InputLabelValue, M.Name] + 1
            else mon.nMatchesByMetric.child [line.InputLabelValue, M.Name])) ∧
      (∀ k, (∀ M ∈ metrics, k ≠ [line.InputLabelValue, M.Name]) →
        (dispatchLine clock metrics line w mon).2.nErrorsByMetric.child k
          = mon.nErrorsByMetric.child k ∧
        (dispatchLine clock metrics line w mon).2.nMatchesByMetric.child k
          = mon.nMatchesByMetric.child k) := by
  obtain ⟨d1, d2, d3, _⟩ := dispatchLine_eq_lineLoop clock metrics line w mon
  refine ⟨?_, ?_, ?_⟩
  · rw [d1, (lineLoop_world clock line metrics (w, mon, false)).1]
  · intro pre post M hsplit
    subst hsplit
    obtain ⟨a1, a2, _, b1, b2, _⟩ := lineLoop_at clock line pre post M (w, mon, false) hnames
    obtain ⟨_, _, o3, o4, _⟩ :=
      lineMetric_own clock line M (lineLoop clock line pre (w, mon, false))
    rw [d2, d3, a1, a2, o3, o4, b1, b2,
      (lineLoop_world clock line pre (w, mon, false)).1]
    exact ⟨rfl, rfl⟩
  · intro k hk
    obtain ⟨f1, f2, _⟩ := lineLoop_frame clock line k metrics (w, mon, false) hk
    rw [d2, d3, f1, f2]
    exact ⟨rfl, rfl⟩

theorem dispatchLine_errors_matches_witness :
    (dispatchLine exampleClock [alwaysMatches "m1".toList, alwaysMatches "m2".toList]
        exampleEvent () (emptyMonitoring "source".toList)).2.nMatchesByMetric.child
          ["s1".toList, "m2".toList] = 0 + 1 ∧
      (dispatchLine exampleClock [alwaysMatches "m1".toList, alwaysMatches "m2".toList]
        exampleEvent () (emptyMonitoring "source".toList)).2.nErrorsByMetric.child
          ["s1".toList, "m2".toList] = 0 :=
  ⟨((dispatchLine_errors_matches exampleClock
      [alwaysMatches "m1".toList, alwaysMatches "m2".toList] exampleEvent ()
      (emptyMonitoring "source".toList) (by decide)).2.1
      [alwaysMatches "m1".toList] [] (alwaysMatches "m2".toList) rfl).2,
    ((dispatchLine_errors_matches exampleClock
      [alwaysMatches "m1".toList, alwaysMatches "m2".toList] exampleEvent ()
      (emptyMonitoring "source".toList) (by decide)).2.1
      [alwaysMatches "m1".toList] [] (alwaysMatches "m2".toList) rfl).1⟩

/-- C15, as stated, fails: with two metrics that match and the clock readings 0, 5000,
7000 and 9000 ns, the amount added for the second metric is 2, the microseconds since the
reading taken just before its own call of `Process`, and not 9, the microseconds since the
first reading of the line. -/
theorem processing_time_counterexample :
    (dispatchLine exampleClock [alwaysMatches "m1".toList, alwaysMatches "m2".toList]
        exampleEvent () (emptyMonitoring "source".toList)).2.procTimeMicrosecondsByMetric.child
          ["s1".toList, "m2".toList] = 2 ∧
      Int.tdiv (exampleClock 3 - exampleClock 0) 1000 = 9 ∧
      Int.tdiv (exampleClock 3 - exampleClock 2) 1000 = 2 :=
  ⟨by decide, by decide, by decide⟩

/-- C15, amended: for a line event `(S, L)` and a metric `M` whose `Process` returned
`matched = true`, the amount added to `processing_time{S, M}` is the whole number of
microseconds (nanoseconds divided by 1000, truncated) between two readings of the clock:
the one taken just before the call of `Process` on `M` and the one taken after it; the
time spent on the metrics before `M` is not part of it.  A metric that does not match
leaves its processing time unchanged.  The names of the metrics are distinct. -/
theorem processing_time_per_metric {W V : Type} [One V] [Add V] [IntCast V]
    (clock : Nat → Int) (line : MultipleFilesTailerEvent)
    (pre post : List (Metric W)) (M : Metric W) (w : W) (mon : Monitoring V)
    (hnames : ((pre ++ M :: post).map (fun m => m.Name)).Nodup) :
    (dispatchLine clock (pre ++ M :: post) line w mon).2.procTimeMicrosecondsByMetric.child
        [line.InputLabelValue, M.Name]
      = (if (M.Process line.InputLabelValue line.Line
            (processWorld line.InputLabelValue line.Line pre w)).1 = true
        then mon.procTimeMicrosecondsByMetric.child [line.InputLabelValue, M.Name]
          + ((Int.tdiv
              (clock (mon.clockReads + pre.length
                  + matchCount line.InputLabelValue line.Line pre w + 1)
                - clock (mon.clockReads + pre.length
                  + matchCount line.InputLabelValue line.Line pre w))
              1000 : Int) : V)
        else mon.procTimeMicrosecondsByMetric.child [line.InputLabelValue, M.Name]) := by
  obtain ⟨_, _, _, d4⟩ := dispatchLine_eq_lineLoop clock (pre ++ M :: post) line w mon
  obtain ⟨_, _, a3, _, _, b3⟩ := lineLoop_at clock line pre post M (w, mon, false) hnames
  obtain ⟨_, _, _, _, o5⟩ :=
    lineMetric_own clock line M (lineLoop clock line pre (w, mon, false))
  obtain ⟨w1, w2⟩ := lineLoop_world clock line pre (w, mon, false)
  rw [d4, a3, o5, b3, w1, w2]

theorem processing_time_per_metric_witness :
    (dispatchLine exampleClock [alwaysMatches "m1".toList, alwaysMatches "m2".toList]
        exampleEvent () (emptyMonitoring "source".toList)).2.procTimeMicrosecondsByMetric.child
          ["s1".toList, "m2".toList]
      = 0 + ((Int.tdiv (exampleClock 3 - exampleClock 2) 1000 : Int) : Int) :=
  processing_time_per_metric exampleClock exampleEvent [alwaysMatches "m1".toList] []
    (alwaysMatches "m2".toList) () (emptyMonitoring "source".toList) (by decide)

end GrokExporter
